import Mathlib

/-!
Shallow embedding of the MealMind evaluation core
(`api/_lib/evaluation/metrics/{shopping_completeness,dietary_compliance,variety}.py`).

Python strings are modelled as lists of code points (`List Nat`); the string
functions model the ASCII fragment of Python's semantics, which covers every
string appearing in the repository's fixed keyword tables.  Python numbers
(ingredient amounts, scores) are modelled as rationals.
-/

/-- A Python string, as a list of code points. -/
abbrev PyStr := List Nat

/-- Convert a Lean string literal to its code-point list. -/
def pystr (s : String) : PyStr := s.toList.map Char.toNat

/-- ASCII whitespace, as recognised by Python's `str.strip` / `str.split`
(the ASCII fragment: space, tab, LF, VT, FF, CR). -/
def isSpace (c : Nat) : Bool :=
  c = 32 || c = 9 || c = 10 || c = 11 || c = 12 || c = 13

/-- `str.lower` on one code point (ASCII fragment). -/
def lowerChar (c : Nat) : Nat := if 65 ≤ c ∧ c ≤ 90 then c + 32 else c

/-- `str.lower` (ASCII fragment). -/
def pyLower (s : PyStr) : PyStr := s.map lowerChar

/-- `str.strip()`: drop whitespace from both ends. -/
def pyStrip (s : PyStr) : PyStr :=
  ((s.dropWhile isSpace).reverse.dropWhile isSpace).reverse

/-- `str.rstrip('s')`: drop every trailing `'s'` (code point 115). -/
def rstripS (s : PyStr) : PyStr :=
  (s.reverse.dropWhile (· = 115)).reverse

/-- Python's `in` on strings: `pat` occurs as a contiguous substring of `s`. -/
def containsSub (pat : PyStr) : PyStr → Bool
  | [] => pat.isPrefixOf []
  | c :: rest => pat.isPrefixOf (c :: rest) || containsSub pat rest

/-- Python `dict` lookup (`d.get(k)`) over an insertion-ordered association list. -/
def alookup {α : Type} (k : PyStr) : List (PyStr × α) → Option α
  | [] => none
  | (k', v) :: rest => if k' = k then some v else alookup k rest

/-- Python's lexicographic `<` on strings (code-point order), used by the
tuple keys of `list.sort`. -/
def pyStrLt : PyStr → PyStr → Bool
  | [], [] => false
  | [], _ :: _ => true
  | _ :: _, [] => false
  | a :: as, b :: bs => a < b || (a = b && pyStrLt as bs)

/-- Python's lexicographic `≤` on strings. -/
def pyStrLe (a b : PyStr) : Bool := pyStrLt a b || a = b

/-- Worker for `pyWords`: `acc` holds the current in-progress word, reversed. -/
def pyWordsAux : PyStr → PyStr → List PyStr
  | acc, [] => if acc = [] then [] else [acc.reverse]
  | acc, c :: rest =>
    if isSpace c then
      if acc = [] then pyWordsAux [] rest else acc.reverse :: pyWordsAux [] rest
    else pyWordsAux (c :: acc) rest

/-- Python `str.split()`: split on whitespace runs, discarding empty chunks. -/
def pyWords (s : PyStr) : List PyStr := pyWordsAux [] s

/-- `' '.join(words)`: interleave a single space (code point 32) between
words. -/
def joinWords : List PyStr → PyStr
  | [] => []
  | [w] => w
  | w :: ws => w ++ 32 :: joinWords ws

/-- `' '.join(s.split())`: collapse whitespace runs to single spaces and
trim the ends. -/
def collapseWs (s : PyStr) : PyStr := joinWords (pyWords s)

/-- Worker for `removeSub`; `fuel` bounds the number of steps so that the
recursion is structural (every call site passes enough fuel). -/
def removeSubAux (pat : PyStr) : Nat → PyStr → PyStr
  | 0, s => s
  | _ + 1, [] => []
  | fuel + 1, c :: rest =>
    if pat.isPrefixOf (c :: rest) then
      removeSubAux pat fuel (rest.drop (pat.length - 1))
    else c :: removeSubAux pat fuel rest

/-- Python `str.replace(pat, '')` with a non-empty pattern: remove every
(leftmost, non-overlapping) occurrence of `pat`.  (For `pat = []` we return
`s` unchanged; the source only ever replaces non-empty modifier strings.) -/
def removeSub (pat : PyStr) (s : PyStr) : PyStr :=
  if pat = [] then s else removeSubAux pat s.length s

/-! ## Data model

Meal plans are Python dicts; fields read with `.get(key, default)` in the
source are modelled as `Option`s so that absent keys are representable
(claim C4 is about absent keys). -/

/-- An ingredient record `{name, amount, unit, category}`; every field may be
absent from the dict. -/
structure Ingredient where
  name? : Option PyStr := none
  amount? : Option ℚ := none
  unit? : Option PyStr := none
  category? : Option PyStr := none
deriving DecidableEq, Repr

/-- A meal / recipe record; only the fields the evaluation core reads. -/
structure Meal where
  recipeName? : Option PyStr := none
  mealType? : Option PyStr := none
  cuisine? : Option PyStr := none
  ingredients? : Option (List Ingredient) := none
deriving DecidableEq, Repr

/-- A day record; only the fields the evaluation core reads. -/
structure Day where
  dayName? : Option PyStr := none
  meals? : Option (List Meal) := none
deriving DecidableEq, Repr

/-- A meal plan record. -/
structure MealPlan where
  days? : Option (List Day) := none
deriving DecidableEq, Repr

/-! ## `shopping_completeness.py`: normalizer -/

/-- The `unit_map` abbreviation table of `normalize_unit`. -/
def unit_map : List (PyStr × PyStr) :=
  [(pystr "tbsp", pystr "tablespoon"),
   (pystr "tsp", pystr "teaspoon"),
   (pystr "oz", pystr "ounce"),
   (pystr "lb", pystr "pound"),
   (pystr "qt", pystr "quart"),
   (pystr "pt", pystr "pint"),
   (pystr "gal", pystr "gallon"),
   (pystr "ml", pystr "milliliter"),
   (pystr "l", pystr "liter"),
   (pystr "g", pystr "gram"),
   (pystr "kg", pystr "kilogram"),
   (pystr "c", pystr "cup")]

/-- `normalize_unit` (shopping_completeness.py, lines 12-42): lower-case and
trim, strip trailing `'s'`, look the stripped form up in `unit_map`, falling
back to the unstripped string. -/
def normalize_unit (unit : PyStr) : PyStr :=
  let unit := pyStrip (pyLower unit)
  let unit_singular := rstripS unit
  let normalized := (alookup unit_singular unit_map).getD unit_singular
  if normalized = unit_singular ∧ (alookup unit unit_map).isSome then
    (alookup unit unit_map).getD normalized
  else normalized

/-- The `modifiers_to_remove` list of `normalize_ingredient_name`. -/
def modifiers_to_remove : List PyStr :=
  [pystr "fresh ", pystr "frozen ", pystr "dried ", pystr "canned ",
   pystr "chopped ", pystr "diced ", pystr "minced ", pystr "sliced ",
   pystr "grated ", pystr "shredded ",
   pystr "peeled ", pystr "unpeeled ", pystr "whole ", pystr "halved ",
   pystr "quartered ",
   pystr "cooked ", pystr "uncooked ", pystr "raw ", pystr "roasted ",
   pystr "boneless ", pystr "skinless ", pystr "bone-in ",
   pystr "organic ", pystr "free-range ", pystr "grass-fed ",
   pystr "unsalted ", pystr "salted ", pystr "sweetened ", pystr "unsweetened ",
   pystr "extra virgin ", pystr "virgin ", pystr "refined ",
   pystr "large ", pystr "medium ", pystr "small ", pystr "baby "]

/-- The `singular_map` plural-to-singular table of `normalize_ingredient_name`. -/
def singular_map : List (PyStr × PyStr) :=
  [(pystr "eggs", pystr "egg"),
   (pystr "onions", pystr "onion"),
   (pystr "tomatoes", pystr "tomato"),
   (pystr "potatoes", pystr "potato"),
   (pystr "sweet potatoes", pystr "sweet potato"),
   (pystr "carrots", pystr "carrot"),
   (pystr "cloves", pystr "clove"),
   (pystr "bananas", pystr "banana"),
   (pystr "apples", pystr "apple"),
   (pystr "berries", pystr "berry"),
   (pystr "beans", pystr "bean"),
   (pystr "green beans", pystr "green bean"),
   (pystr "chickpeas", pystr "chickpea"),
   (pystr "lentils", pystr "lentil"),
   (pystr "peppers", pystr "pepper"),
   (pystr "bell peppers", pystr "bell pepper"),
   (pystr "mushrooms", pystr "mushroom"),
   (pystr "zucchinis", pystr "zucchini"),
   (pystr "cucumbers", pystr "cucumber"),
   (pystr "avocados", pystr "avocado"),
   (pystr "lemons", pystr "lemon"),
   (pystr "limes", pystr "lime"),
   (pystr "oranges", pystr "orange"),
   (pystr "strawberries", pystr "strawberry"),
   (pystr "blueberries", pystr "blueberry"),
   (pystr "raspberries", pystr "raspberry")]

/-- `normalize_ingredient_name` (shopping_completeness.py, lines 45-101):
lower-case and trim, remove every modifier substring in table order, collapse
whitespace, then map plural to singular by exact lookup. -/
def normalize_ingredient_name (name : PyStr) : PyStr :=
  let name := pyStrip (pyLower name)
  let name := modifiers_to_remove.foldl (fun n m => removeSub m n) name
  let name := collapseWs name
  (alookup name singular_map).getD name

/-! ## `shopping_completeness.py`: categorizer -/

/-- `produce_keywords` of `infer_category`. -/
def produce_keywords : List PyStr :=
  [pystr "lettuce", pystr "tomato", pystr "onion", pystr "garlic",
   pystr "carrot", pystr "celery", pystr "pepper", pystr "cucumber",
   pystr "zucchini", pystr "broccoli", pystr "spinach", pystr "kale",
   pystr "cabbage", pystr "mushroom", pystr "potato", pystr "avocado",
   pystr "lemon", pystr "lime", pystr "orange", pystr "apple",
   pystr "banana", pystr "berry", pystr "basil", pystr "cilantro",
   pystr "parsley", pystr "lettuce", pystr "arugula"]

/-- `dairy_keywords` of `infer_category`. -/
def dairy_keywords : List PyStr :=
  [pystr "milk", pystr "cream", pystr "cheese", pystr "butter",
   pystr "yogurt", pystr "sour cream", pystr "parmesan", pystr "mozzarella",
   pystr "cheddar", pystr "feta"]

/-- `meat_keywords` of `infer_category`. -/
def meat_keywords : List PyStr :=
  [pystr "chicken", pystr "beef", pystr "pork", pystr "turkey",
   pystr "lamb", pystr "fish", pystr "salmon", pystr "tuna",
   pystr "shrimp", pystr "bacon", pystr "sausage", pystr "ham"]

/-- `pantry_keywords` of `infer_category`. -/
def pantry_keywords : List PyStr :=
  [pystr "flour", pystr "sugar", pystr "rice", pystr "pasta",
   pystr "bread", pystr "oil", pystr "vinegar", pystr "sauce",
   pystr "stock", pystr "broth", pystr "beans", pystr "chickpea",
   pystr "lentil", pystr "honey", pystr "maple", pystr "peanut butter",
   pystr "jam"]

/-- `spice_keywords` of `infer_category`. -/
def spice_keywords : List PyStr :=
  [pystr "salt", pystr "pepper", pystr "cumin", pystr "paprika",
   pystr "oregano", pystr "thyme", pystr "cinnamon", pystr "nutmeg",
   pystr "ginger", pystr "curry", pystr "chili", pystr "cayenne",
   pystr "turmeric", pystr "coriander", pystr "bay leaf", pystr "vanilla"]

/-- `frozen_keywords` of `infer_category`. -/
def frozen_keywords : List PyStr :=
  [pystr "frozen", pystr "ice cream", pystr "popsicle"]

/-- `infer_category` (shopping_completeness.py, lines 104-161): first matching
category in the order produce, dairy, meat, spices, frozen, pantry wins;
`"other"` if nothing matches. -/
def infer_category (ingredient_name : PyStr) : PyStr :=
  let name := pyLower ingredient_name
  if produce_keywords.any (fun k => containsSub k name) then pystr "produce"
  else if dairy_keywords.any (fun k => containsSub k name) then pystr "dairy"
  else if meat_keywords.any (fun k => containsSub k name) then pystr "meat"
  else if spice_keywords.any (fun k => containsSub k name) then pystr "spices"
  else if frozen_keywords.any (fun k => containsSub k name) then pystr "frozen"
  else if pantry_keywords.any (fun k => containsSub k name) then pystr "pantry"
  else pystr "other"

/-! ## `shopping_completeness.py`: deterministic completeness pre-check -/

/-- Result dict of `deterministic_completeness_check`.
`missing_normalized` is modelled as the underlying deduplicated list of the
Python set `meal_set - shopping_set` (CPython set iteration order is
unspecified; every property proved below is order-independent). -/
structure CompletenessPrecheck where
  has_missing : Bool
  missing_normalized : List PyStr
  meal_count : Nat
  shopping_count : Nat
deriving DecidableEq, Repr

/-- The `for` loops of `deterministic_completeness_check`: read `rec['name']`
(raising `KeyError` when the key is absent) and normalize it, for every
record in order. -/
def normalizedNames : List Ingredient → Except PyStr (List PyStr)
  | [] => Except.ok []
  | ing :: rest =>
    match ing.name? with
    | none => Except.error (pystr "KeyError: name")
    | some n =>
      match normalizedNames rest with
      | Except.ok ns => Except.ok (normalize_ingredient_name n :: ns)
      | Except.error e => Except.error e

/-- `deterministic_completeness_check` (shopping_completeness.py, lines
164-195).  The source reads `ing['name']` / `item['name']` with plain
subscription, so a record without a `name` key raises `KeyError`; this is
modelled by the `Except` error branch.  The Python sets of normalized names
are modelled by deduplicated lists (set order is unspecified in CPython; no
property proved below depends on it). -/
def deterministic_completeness_check (meal_ingredients : List Ingredient)
    (shopping_items : List Ingredient) :
    Except PyStr CompletenessPrecheck :=
  match normalizedNames meal_ingredients with
  | Except.error e => Except.error e
  | Except.ok meal_names =>
    match normalizedNames shopping_items with
    | Except.error e => Except.error e
    | Except.ok shopping_names =>
      let meal_set := meal_names.dedup
      let shop_set := shopping_names.dedup
      let missing := meal_set.filter (fun n => ¬ n ∈ shop_set)
      Except.ok { has_missing := missing.length > 0
                  missing_normalized := missing
                  meal_count := meal_set.length
                  shopping_count := shop_set.length }

/-! ## `shopping_completeness.py`: aggregator -/

/-- One entry of the `aggregated` dict (also the shape of the final shopping
item; `id` is only filled in after aggregation, and is `[]` before that). -/
structure ShoppingItem where
  name : PyStr
  amount : ℚ
  unit : PyStr
  category : PyStr
  fromRecipes : List PyStr
  checked : Bool
  id : PyStr := []
deriving DecidableEq, Repr

/-- One loop iteration of `aggregate_ingredients`, with the per-ingredient
quantities the loop body computes. -/
structure Occurrence where
  key : PyStr
  originalName : PyStr
  amount : ℚ
  displayUnit : PyStr
  category : PyStr
  recipeName : PyStr
deriving DecidableEq, Repr

/-- The loop body of `aggregate_ingredients` up to the dict update: read the
ingredient fields with their `.get` defaults, normalize, infer the category,
and build the grouping key `name_normalized|unit_normalized`. -/
def mkOccurrence (recipe_name : PyStr) (ing : Ingredient) : Occurrence :=
  let original_name := ing.name?.getD []
  let name_normalized := normalize_ingredient_name original_name
  let amount := ing.amount?.getD 0        -- `ing.get('amount') or 0`
  let original_unit := ing.unit?.getD []  -- `ing.get('unit') or ''`
  let unit_normalized := normalize_unit original_unit
  let category0 := ing.category?.getD []
  let category :=
    if category0 = [] ∨ category0 = pystr "other" then infer_category original_name
    else category0
  let display_unit := if pyStrip unit_normalized = [] then original_unit else unit_normalized
  { key := name_normalized ++ [124] ++ unit_normalized  -- '|' is 124
    originalName := original_name
    amount := amount
    displayUnit := display_unit
    category := category
    recipeName := recipe_name }

/-- All loop iterations of `aggregate_ingredients`, in encounter order
(days, then meals, then ingredients). -/
def occurrences (meal_plan : MealPlan) : List Occurrence :=
  (meal_plan.days?.getD []).flatMap fun day =>
    (day.meals?.getD []).flatMap fun meal =>
      (meal.ingredients?.getD []).map
        (mkOccurrence (meal.recipeName?.getD (pystr "Unknown")))

/-- The `aggregated[key] = {...}` insert branch of `aggregate_ingredients`:
the fresh entry built from one occurrence. -/
def freshItem (occ : Occurrence) : ShoppingItem :=
  { name := occ.originalName, amount := occ.amount,
    unit := occ.displayUnit, category := occ.category,
    fromRecipes := [occ.recipeName], checked := false }

/-- The repeated-key branch of `aggregate_ingredients`: add the amount to the
running total and append the recipe name. -/
def bumpItem (v : ShoppingItem) (occ : Occurrence) : ShoppingItem :=
  { v with amount := v.amount + occ.amount,
           fromRecipes := v.fromRecipes ++ [occ.recipeName] }

/-- The dict update of one `aggregate_ingredients` iteration: sum the amount
and append the recipe name on a repeated key, insert a fresh entry otherwise
(Python dicts preserve insertion order, hence the association list). -/
def addOccurrence : List (PyStr × ShoppingItem) → Occurrence →
    List (PyStr × ShoppingItem)
  | [], occ => [(occ.key, freshItem occ)]
  | (k, v) :: rest, occ =>
    if k = occ.key then (k, bumpItem v occ) :: rest
    else (k, v) :: addOccurrence rest occ

/-- The fully built `aggregated` dict of `aggregate_ingredients`. -/
def aggregated (meal_plan : MealPlan) : List (PyStr × ShoppingItem) :=
  (occurrences meal_plan).foldl addOccurrence []

/-- `f"item-{i}"`. -/
def itemId (i : Nat) : PyStr :=
  pystr "item-" ++ (Nat.toDigits 10 i).map Char.toNat

/-- The `category_order` ranking list of `aggregate_ingredients`. -/
def category_order : List PyStr :=
  [pystr "produce", pystr "dairy", pystr "meat", pystr "pantry",
   pystr "spices", pystr "frozen", pystr "other"]

/-- `category_order.index(c) if c in category_order else 999`. -/
def categoryRank (c : PyStr) : Nat :=
  (category_order.indexOf? c).getD 999

/-- The sort key comparison of `aggregate_ingredients`: Python tuple order on
`(category rank, display name)`. -/
def itemLe (a b : ShoppingItem) : Prop :=
  categoryRank a.category < categoryRank b.category ∨
    (categoryRank a.category = categoryRank b.category ∧
      pyStrLe a.name b.name = true)

instance : DecidableRel itemLe := fun a b => by
  unfold itemLe; infer_instance

/-- `aggregate_ingredients` (shopping_completeness.py, lines 348-410):
aggregate into the insertion-ordered dict, assign ids `item-0, item-1, ...` in
dict iteration order, deduplicate `fromRecipes` (`list(set(...))`, modelled by
`List.dedup`; its order is unspecified in CPython, and no property proved here
depends on it), then stable-sort by `(category rank, name)`. -/
def aggregate_ingredients (meal_plan : MealPlan) : List ShoppingItem :=
  let result := (aggregated meal_plan).enum.map fun (i, _, item) =>
    { item with id := itemId i, fromRecipes := item.fromRecipes.dedup }
  List.insertionSort itemLe result

/-! ## `dietary_compliance.py` -/

/-- `ALLERGEN_KEYWORDS` (dietary_compliance.py, lines 13-63). -/
def ALLERGEN_KEYWORDS : List (PyStr × List PyStr) :=
  [(pystr "gluten-free",
    [pystr "wheat", pystr "flour", pystr "bread", pystr "pasta",
     pystr "barley", pystr "rye", pystr "couscous", pystr "soy sauce",
     pystr "beer", pystr "malt", pystr "seitan", pystr "bulgur",
     pystr "semolina", pystr "orzo", pystr "breadcrumbs", pystr "croutons",
     pystr "tortilla", pystr "noodles", pystr "cake", pystr "cookie",
     pystr "pastry", pystr "pie crust", pystr "batter", pystr "breading"]),
   (pystr "dairy-free",
    [pystr "milk", pystr "cheese", pystr "butter", pystr "cream",
     pystr "yogurt", pystr "whey", pystr "casein", pystr "ghee",
     pystr "lactose", pystr "curd", pystr "paneer", pystr "ricotta",
     pystr "mozzarella", pystr "parmesan", pystr "cheddar", pystr "feta",
     pystr "brie", pystr "cottage cheese", pystr "sour cream",
     pystr "ice cream", pystr "custard", pystr "buttermilk"]),
   (pystr "nut-free",
    [pystr "almond", pystr "walnut", pystr "cashew", pystr "pistachio",
     pystr "pecan", pystr "hazelnut", pystr "macadamia", pystr "peanut",
     pystr "nut butter", pystr "marzipan", pystr "praline", pystr "nutella",
     pystr "pine nut", pystr "brazil nut", pystr "chestnut", pystr "nut oil",
     pystr "nut flour"]),
   (pystr "egg-free",
    [pystr "egg", pystr "eggs", pystr "mayonnaise", pystr "aioli",
     pystr "meringue", pystr "custard", pystr "hollandaise", pystr "egg wash",
     pystr "egg white", pystr "egg yolk", pystr "quiche", pystr "frittata",
     pystr "omelette", pystr "scrambled"]),
   (pystr "shellfish-free",
    [pystr "shrimp", pystr "crab", pystr "lobster", pystr "prawn",
     pystr "crawfish", pystr "clam", pystr "mussel", pystr "oyster",
     pystr "scallop", pystr "crayfish", pystr "langoustine"]),
   (pystr "soy-free",
    [pystr "soy", pystr "tofu", pystr "tempeh", pystr "edamame",
     pystr "miso", pystr "soy sauce", pystr "soya", pystr "soybean",
     pystr "soy milk", pystr "soy lecithin", pystr "tamari",
     pystr "teriyaki"]),
   (pystr "vegetarian",
    [pystr "chicken", pystr "beef", pystr "pork", pystr "lamb",
     pystr "fish", pystr "bacon", pystr "ham", pystr "turkey",
     pystr "duck", pystr "veal", pystr "meat", pystr "anchovy",
     pystr "gelatin", pystr "lard", pystr "sausage", pystr "pepperoni",
     pystr "salami", pystr "prosciutto", pystr "steak", pystr "ribs",
     pystr "ground beef", pystr "ground turkey", pystr "salmon",
     pystr "tuna", pystr "shrimp", pystr "cod"]),
   (pystr "vegan",
    [pystr "chicken", pystr "beef", pystr "pork", pystr "lamb",
     pystr "fish", pystr "bacon", pystr "ham", pystr "turkey",
     pystr "duck", pystr "veal", pystr "meat", pystr "anchovy",
     pystr "milk", pystr "cheese", pystr "butter", pystr "cream",
     pystr "yogurt", pystr "egg", pystr "honey", pystr "gelatin",
     pystr "whey", pystr "casein", pystr "ghee", pystr "lard",
     pystr "sausage", pystr "steak", pystr "salmon", pystr "shrimp"]),
   (pystr "diabetic-friendly", []),
   (pystr "low-sodium",
    [pystr "soy sauce", pystr "fish sauce", pystr "worcestershire",
     pystr "bouillon", pystr "stock cube", pystr "cured", pystr "pickled",
     pystr "salted", pystr "smoked"])]

/-- `SAFE_COMPOUNDS` (dietary_compliance.py, lines 68-106). -/
def SAFE_COMPOUNDS : List (PyStr × List PyStr) :=
  [(pystr "dairy-free",
    [pystr "coconut milk", pystr "oat milk", pystr "almond milk",
     pystr "soy milk", pystr "rice milk", pystr "cashew milk",
     pystr "hemp milk", pystr "flax milk", pystr "macadamia milk",
     pystr "coconut cream", pystr "coconut butter", pystr "cocoa butter",
     pystr "shea butter", pystr "peanut butter", pystr "almond butter",
     pystr "cashew butter", pystr "sunflower butter", pystr "seed butter",
     pystr "soy butter", pystr "coconut yogurt", pystr "soy yogurt",
     pystr "oat yogurt", pystr "almond yogurt", pystr "vegan cheese",
     pystr "nutritional yeast", pystr "coconut ice cream",
     pystr "vegan ice cream", pystr "coconut custard",
     pystr "coconut milk powder", pystr "full-fat coconut milk"]),
   (pystr "vegan",
    [pystr "coconut milk", pystr "oat milk", pystr "almond milk",
     pystr "soy milk", pystr "rice milk", pystr "cashew milk",
     pystr "hemp milk", pystr "flax milk", pystr "macadamia milk",
     pystr "coconut cream", pystr "coconut butter", pystr "cocoa butter",
     pystr "peanut butter", pystr "almond butter", pystr "cashew butter",
     pystr "sunflower butter", pystr "coconut yogurt", pystr "soy yogurt",
     pystr "oat yogurt", pystr "vegan cheese", pystr "vegan sausage",
     pystr "vegan steak", pystr "coconut ice cream", pystr "vegan ice cream",
     pystr "vegan egg", pystr "egg substitute", pystr "egg replacer",
     pystr "vegan honey", pystr "agave"]),
   (pystr "gluten-free",
    [pystr "almond flour", pystr "coconut flour", pystr "rice flour",
     pystr "oat flour", pystr "chickpea flour", pystr "tapioca flour",
     pystr "cassava flour", pystr "teff flour", pystr "buckwheat flour",
     pystr "sorghum flour", pystr "millet flour", pystr "gluten-free pasta",
     pystr "gluten-free bread", pystr "gluten-free noodles",
     pystr "gluten-free tortilla", pystr "corn tortilla",
     pystr "gluten-free soy sauce", pystr "tamari", pystr "rice noodles",
     pystr "glass noodles", pystr "zucchini noodles", pystr "rice cake"]),
   (pystr "nut-free",
    [pystr "coconut", pystr "coconut milk", pystr "coconut cream",
     pystr "coconut flour", pystr "coconut oil", pystr "coconut butter"])]

/-- `_is_safe_compound` (dietary_compliance.py, lines 109-115). -/
def _is_safe_compound (ingredient : PyStr) (restriction_key : PyStr) : Bool :=
  ((alookup restriction_key SAFE_COMPOUNDS).getD []).any
    (fun safe => containsSub safe ingredient)

/-- `restriction.lower().replace('_', '-').replace(' ', '-')`. -/
def restrictionKey (restriction : PyStr) : PyStr :=
  (pyLower restriction).map fun c => if c = 95 ∨ c = 32 then 45 else c

/-- One violation record of `evaluate_dietary_compliance`. -/
structure Violation where
  restriction : PyStr
  ingredient : PyStr
  matchedKeyword : PyStr
  detectionMethod : PyStr
deriving DecidableEq, Repr

/-- Result dict of `evaluate_dietary_compliance`.  The early empty-restriction
return carries only the first four keys; the remaining keys are `Option`s that
the early return leaves absent. -/
structure ComplianceResult where
  score : ℚ
  passed : Bool
  violations : List Violation
  confidence : ℚ
  keywordViolations? : Option Nat := none
  llmViolations? : Option Nat := none
  checkedRestrictions? : Option (List PyStr) := none
deriving DecidableEq, Repr

/-- The violations one restriction contributes, in ingredient order: skip any
ingredient matching a safe compound, otherwise record the first matching
banned keyword (at most one violation per ingredient per restriction). -/
def violationsFor (restriction : PyStr) (ingredient_names : List PyStr) :
    List Violation :=
  let restriction_key := restrictionKey restriction
  let keywords := (alookup restriction_key ALLERGEN_KEYWORDS).getD []
  ingredient_names.filterMap fun ingredient =>
    if _is_safe_compound ingredient restriction_key then none
    else
      match keywords.find? (fun keyword => containsSub keyword ingredient) with
      | some keyword => some { restriction := restriction,
                               ingredient := ingredient,
                               matchedKeyword := keyword,
                               detectionMethod := pystr "keyword" }
      | none => none

/-- `evaluate_dietary_compliance` (dietary_compliance.py, lines 118-174);
the function is `async` but performs no awaits besides pure computation, so it
is modelled as a pure function. -/
def evaluate_dietary_compliance (recipe : Meal) (restrictions : List PyStr) :
    ComplianceResult :=
  if restrictions = [] then
    { score := 1, passed := true, violations := [], confidence := 1 }
  else
    let ingredient_names :=
      (recipe.ingredients?.getD []).map fun ing => pyLower (ing.name?.getD [])
    let keyword_violations :=
      (restrictions.map (fun r => violationsFor r ingredient_names)).flatten
    let is_safe := keyword_violations.length = 0
    { score := if is_safe then 1 else 0
      passed := is_safe
      violations := keyword_violations
      confidence := 1
      keywordViolations? := some keyword_violations.length
      llmViolations? := some 0
      checkedRestrictions? := some restrictions }

/-- A plan-level violation: a recipe violation tagged with its day name, meal
type and recipe name. -/
structure PlanViolation extends Violation where
  day : PyStr
  mealType : PyStr
  recipeName : PyStr
deriving DecidableEq, Repr

/-- Result dict of `check_meal_plan_compliance`. -/
structure PlanComplianceResult where
  score : ℚ
  passed : Bool
  complianceRate : ℚ
  mealsChecked : Nat
  mealsCompliant : Nat
  violations : List PlanViolation
deriving DecidableEq, Repr

/-- The `(day, meal)` pairs `check_meal_plan_compliance` iterates over, in
encounter order. -/
def planMeals (meal_plan : MealPlan) : List (Day × Meal) :=
  (meal_plan.days?.getD []).flatMap fun day =>
    (day.meals?.getD []).map fun meal => (day, meal)

/-- `check_meal_plan_compliance` (dietary_compliance.py, lines 177-212). -/
def check_meal_plan_compliance (meal_plan : MealPlan)
    (restrictions : List PyStr) : PlanComplianceResult :=
  let checks := planMeals meal_plan
  let meals_checked := checks.length
  let meals_compliant :=
    checks.countP fun dm => (evaluate_dietary_compliance dm.2 restrictions).passed
  let all_violations := checks.flatMap fun dm =>
    let result := evaluate_dietary_compliance dm.2 restrictions
    if result.passed then []
    else result.violations.map fun v =>
      { toViolation := v
        day := dm.1.dayName?.getD (pystr "Unknown")
        mealType := dm.2.mealType?.getD (pystr "Unknown")
        recipeName := dm.2.recipeName?.getD (pystr "Unknown") }
  let compliance_rate : ℚ :=
    if meals_checked > 0 then (meals_compliant : ℚ) / (meals_checked : ℚ) else 1
  { score := if compliance_rate = 1 then 1 else 0
    passed := compliance_rate = 1
    complianceRate := compliance_rate
    mealsChecked := meals_checked
    mealsCompliant := meals_compliant
    violations := all_violations }

/-! ## `variety.py` -/

/-- `PROTEIN_KEYWORDS` (variety.py, lines 12-15). -/
def PROTEIN_KEYWORDS : List PyStr :=
  [pystr "chicken", pystr "beef", pystr "pork", pystr "fish",
   pystr "tofu", pystr "lamb", pystr "shrimp", pystr "turkey",
   pystr "salmon", pystr "tuna", pystr "eggs", pystr "beans",
   pystr "lentils", pystr "tempeh"]

/-- The flattened meal list of `evaluate_meal_variety`, in day-then-meal
order. -/
def varietyMeals (meal_plan : MealPlan) : List Meal :=
  (meal_plan.days?.getD []).flatMap fun day => day.meals?.getD []

/-- `all_recipes`: the lower-cased recipe names in flattened order. -/
def allRecipes (meal_plan : MealPlan) : List PyStr :=
  (varietyMeals meal_plan).map fun meal => pyLower (meal.recipeName?.getD [])

/-- `cuisines`: the lower-cased cuisines in flattened order (a missing
`cuisine` key defaults to `'unknown'`). -/
def planCuisines (meal_plan : MealPlan) : List PyStr :=
  (varietyMeals meal_plan).map fun meal =>
    pyLower (meal.cuisine?.getD (pystr "unknown"))

/-- `proteins`: for each ingredient of each meal, the first protein keyword
occurring in its lower-cased name (if any). -/
def planProteins (meal_plan : MealPlan) : List PyStr :=
  (varietyMeals meal_plan).flatMap fun meal =>
    (meal.ingredients?.getD []).filterMap fun ing =>
      PROTEIN_KEYWORDS.find? fun protein =>
        containsSub protein (pyLower (ing.name?.getD []))

/-- The number of adjacent equal pairs in a list (each contributes `0.1` to
`repetition_penalty`). -/
def adjacentRepeats : List PyStr → Nat
  | a :: b :: rest => (if a = b then 1 else 0) + adjacentRepeats (b :: rest)
  | _ => 0

/-- Python's `round(x, 3)` over the rational model: round `1000 x` to an
integer and divide back.  (CPython rounds floats half-to-even; `round` here
rounds half up.  The two agree except on exact thousandth-of-a-half ties,
which no value in this development hits.) -/
def round3 (q : ℚ) : ℚ := (round (1000 * q) : ℤ) / 1000

/-- The `deterministic` sub-dict of the `evaluate_meal_variety` result. -/
structure VarietyBreakdown where
  recipeUniqueness : ℚ
  cuisineDiversity : ℚ
  proteinDiversity : ℚ
  uniqueRecipes : Nat
  totalRecipes : Nat
  uniqueCuisines : Nat
  uniqueProteins : Nat
  repetitionPenalty : ℚ
deriving DecidableEq, Repr

/-- Result dict of `evaluate_meal_variety`. -/
structure VarietyResult where
  score : ℚ
  passed : Bool
  deterministic : VarietyBreakdown
deriving DecidableEq, Repr

/-- `evaluate_meal_variety` (variety.py, lines 18-89); `async` but pure, so
modelled as a function.  (`meal_types_count` is computed by the source but
never used in its result, so it is omitted.)  Set cardinalities
(`len(set(xs))`) are modelled by `xs.dedup.length`. -/
def evaluate_meal_variety (meal_plan : MealPlan) : VarietyResult :=
  let all_recipes := allRecipes meal_plan
  let cuisines := planCuisines meal_plan
  let proteins := planProteins meal_plan
  let total_recipes := if all_recipes.length = 0 then 1 else all_recipes.length
  let unique_recipes := all_recipes.dedup.length
  let recipe_uniqueness : ℚ := (unique_recipes : ℚ) / (total_recipes : ℚ)
  let unique_cuisines := cuisines.dedup.length
  let cuisine_diversity : ℚ := min ((unique_cuisines : ℚ) / 3) 1
  let unique_proteins := proteins.dedup.length
  let protein_diversity : ℚ := min ((unique_proteins : ℚ) / 3) 1
  let repetition_penalty : ℚ := (adjacentRepeats all_recipes : ℚ) * (1 / 10)
  let deterministic_score :=
    recipe_uniqueness * (4 / 10) + cuisine_diversity * (3 / 10) +
      protein_diversity * (3 / 10) - repetition_penalty
  let final_score := max 0 (min 1 deterministic_score)
  { score := round3 final_score
    passed := final_score ≥ 55 / 100
    deterministic :=
      { recipeUniqueness := round3 recipe_uniqueness
        cuisineDiversity := round3 cuisine_diversity
        proteinDiversity := round3 protein_diversity
        uniqueRecipes := unique_recipes
        totalRecipes := total_recipes
        uniqueCuisines := unique_cuisines
        uniqueProteins := unique_proteins
        repetitionPenalty := round3 repetition_penalty } }

/-! ## Concrete fixtures used by the example-level claims -/

/-- A single-ingredient recipe used by the allowlist-precedence example. -/
def almondMilkRecipe : Meal :=
  { ingredients? := some [{ name? := some (pystr "unsweetened almond milk") }] }

/-- A meal whose only ingredient violates `dairy-free`. -/
def mealMilk : Meal :=
  { recipeName? := some (pystr "Milk Meal"),
    ingredients? := some [{ name? := some (pystr "milk") }] }

/-- A meal with no restricted ingredient. -/
def mealRice : Meal :=
  { recipeName? := some (pystr "Rice Meal"),
    ingredients? := some [{ name? := some (pystr "rice") }] }

/-- A 2-meal plan in which exactly one meal violates `dairy-free`. -/
def twoMealPlan : MealPlan :=
  { days? := some [{ dayName? := some (pystr "Monday"),
                     meals? := some [mealMilk, mealRice] }] }

/-- First recipe of the aggregation-merge example. -/
def recipeA : Meal :=
  { recipeName? := some (pystr "Recipe A"),
    ingredients? := some [
      { name? := some (pystr "eggs"), amount? := some 2,
        unit? := some (pystr "large") },
      { name? := some (pystr "flour"), amount? := some 1,
        unit? := some (pystr "cup") }] }

/-- Second recipe of the aggregation-merge example; `Eggs` differs from
`eggs` only in case, the two `flour` entries differ in unit. -/
def recipeB : Meal :=
  { recipeName? := some (pystr "Eggs Benedict"),
    ingredients? := some [
      { name? := some (pystr "Eggs"), amount? := some 3,
        unit? := some (pystr "large") },
      { name? := some (pystr "flour"), amount? := some 200,
        unit? := some (pystr "g") }] }

/-- The aggregation-merge example plan. -/
def mergePlan : MealPlan :=
  { days? := some [{ meals? := some [recipeA, recipeB] }] }

/-- A meal plan with zero meals. -/
def emptyPlan : MealPlan := { days? := some [] }

/-- A plan whose first-inserted aggregation entry (`sugar`, pantry) sorts
after its second (`apple`, produce). -/
def sugarApplePlan : MealPlan :=
  { days? := some [{ meals? := some [
      { recipeName? := some (pystr "R"),
        ingredients? := some [
          { name? := some (pystr "sugar") },
          { name? := some (pystr "apple") }] }] }] }

/-- A one-meal meal with only a recipe name (used to build variety plans). -/
def mealNamed (n : String) : Meal := { recipeName? := some (pystr n) }

/-- Variety plan `a a b b c c c`: three adjacent repeats. -/
def repeatPlan : MealPlan :=
  { days? := some [{ meals? := some [mealNamed "a", mealNamed "a", mealNamed "b",
                                     mealNamed "b", mealNamed "c", mealNamed "c",
                                     mealNamed "c"] }] }

/-- Variety plan `a a b b c c d`: identical to `repeatPlan` except the last
slot, which removes the final adjacent repeat. -/
def noRepeatPlan : MealPlan :=
  { days? := some [{ meals? := some [mealNamed "a", mealNamed "a", mealNamed "b",
                                     mealNamed "b", mealNamed "c", mealNamed "c",
                                     mealNamed "d"] }] }

/-- Variety plan `x x y`: one adjacent repeat, score not clamped. -/
def smallRepeatPlan : MealPlan :=
  { days? := some [{ meals? := some [mealNamed "x", mealNamed "x",
                                     mealNamed "y"] }] }

/-- Variety plan `x z y`: `smallRepeatPlan` with the repeat removed. -/
def smallNoRepeatPlan : MealPlan :=
  { days? := some [{ meals? := some [mealNamed "x", mealNamed "z",
                                     mealNamed "y"] }] }

/-- The `apple` item `aggregate_ingredients` produces for
`sugarApplePlan` (the produce item carries the second-assigned id but sorts
first). -/
def appleItem : ShoppingItem :=
  { name := pystr "apple", amount := 0, unit := [],
    category := pystr "produce", fromRecipes := [pystr "R"],
    checked := false, id := itemId 1 }

/-- Observer: the running amount stored in the aggregation dict under a key
(0 when the key is absent). -/
def aggAmount (m : List (PyStr × ShoppingItem)) (k : PyStr) : ℚ :=
  ((alookup k m).map (fun it => it.amount)).getD 0

/-- Observer: the recipe-name list stored in the aggregation dict under a key
(`[]` when the key is absent). -/
def aggRecipes (m : List (PyStr × ShoppingItem)) (k : PyStr) : List PyStr :=
  ((alookup k m).map (fun it => it.fromRecipes)).getD []

/-- Replace each absent optional ingredient field by the default the code's
`.get` calls supply: empty string for name/unit/category, 0 for amount. -/
def fillIngredient (i : Ingredient) : Ingredient :=
  { name? := some (i.name?.getD []),
    amount? := some (i.amount?.getD 0),
    unit? := some (i.unit?.getD []),
    category? := some (i.category?.getD []) }

/-- Replace an absent `ingredients` key by the empty list (and fill each
ingredient); other meal fields are not in the claim's optional-field list. -/
def fillMeal (m : Meal) : Meal :=
  { m with ingredients? := some ((m.ingredients?.getD []).map fillIngredient) }

/-- Replace an absent `meals` key by the empty list. -/
def fillDay (d : Day) : Day :=
  { d with meals? := some ((d.meals?.getD []).map fillMeal) }

/-- Replace an absent `days` key by the empty list. -/
def fillPlan (p : MealPlan) : MealPlan :=
  { days? := some ((p.days?.getD []).map fillDay) }

deriving instance DecidableEq for Except

/- The arithmetic core operations on `Rat` are `@[irreducible]` in the
ambient library; make them reducible so that concrete evaluations can be
settled by `decide`. -/
unseal Rat.add Rat.mul Rat.inv Rat.sub Rat.ofScientific

set_option maxRecDepth 8000

/-! ## Shared helper lemmas -/

/-- A successful association-list lookup returns a stored pair. -/
theorem alookup_mem {α : Type} {k : PyStr} {v : α} :
    ∀ {m : List (PyStr × α)}, alookup k m = some v → (k, v) ∈ m := by
  intro m
  induction m with
  | nil => intro h; simp [alookup] at h
  | cons p rest ih =>
    obtain ⟨k', v'⟩ := p
    intro h
    by_cases hk : k' = k
    · subst hk
      have hv : v' = v := by simpa [alookup] using h
      subst hv
      exact List.mem_cons_self _ _
    · simp only [alookup, if_neg hk] at h
      exact List.mem_cons_of_mem _ (ih h)

/-- No `unit_map` key ends in `'s'`, and no entry maps a key to itself. -/
theorem unit_map_key_facts : ∀ p ∈ unit_map, rstripS p.1 = p.1 ∧ p.2 ≠ p.1 := by
  decide

/-! ## C6 -/

/-- The fallback branch of `normalize_unit` is dead code (no `unit_map` key
ends in `'s'`, and no entry maps a key to itself), so `normalize_unit`
reduces to one table lookup of the stripped form. -/
theorem normalize_unit_getD (u : PyStr) :
    normalize_unit u =
      (alookup (rstripS (pyStrip (pyLower u))) unit_map).getD
        (rstripS (pyStrip (pyLower u))) := by
  unfold normalize_unit
  cases h : alookup (pyStrip (pyLower u)) unit_map with
  | none => simp [h]
  | some v =>
    have hfacts := unit_map_key_facts _ (alookup_mem h)
    have hs : rstripS (pyStrip (pyLower u)) = pyStrip (pyLower u) := hfacts.1
    have hne : v ≠ pyStrip (pyLower u) := hfacts.2
    simp only [hs, h, Option.getD_some, Option.isSome_some, and_true]
    rw [if_neg hne]

/-- C6: `normalize_unit` lower-cases and trims, strips the trailing-`'s'` run
(`rstrip('s')` strips every trailing `'s'`, not exactly one), looks the
stripped form up in `unit_map`, and on a miss returns the stripped form (not
the input unchanged); the fallback lookup of the unstripped string never
fires because no table key ends in `'s'`.  Known units map through the
table, unknown units without trailing `'s'` (such as `"large"`) do pass
through unchanged. -/
theorem c6_normalize_unit_characterization :
    (∀ u : PyStr, normalize_unit u =
      (alookup (rstripS (pyStrip (pyLower u))) unit_map).getD
        (rstripS (pyStrip (pyLower u)))) ∧
    normalize_unit (pystr "tbsp") = pystr "tablespoon" ∧
    normalize_unit (pystr "large") = pystr "large" ∧
    normalize_unit (pystr "cupss") = pystr "cup" :=
  ⟨normalize_unit_getD, by decide, by decide, by decide⟩

/-- C6 counterexample to the claim as stated: on `"cupss"` the code strips
both trailing `'s'` characters and returns `"cup"`, which is neither the
single-stripped form `"cups"` nor the input `"cupss"` unchanged. -/
theorem c6_counterexample :
    normalize_unit (pystr "cupss") = pystr "cup" ∧
    pystr "cup" ≠ pystr "cups" ∧ pystr "cup" ≠ pystr "cupss" := by
  decide

/-! ## C5 -/

/-- C5 counterexample: on the zero-meal plan the code computes
`recipeUniqueness = 0/1 = 0`, not the claimed `1`. -/
theorem c5_counterexample :
    (evaluate_meal_variety emptyPlan).deterministic.recipeUniqueness = 0 ∧
    (evaluate_meal_variety emptyPlan).deterministic.recipeUniqueness ≠ 1 := by
  constructor
  · decide
  · decide

/-- C5 amended: for every plan with zero meals the division is guarded
(`total_recipes` defaults to 1, nothing raises), and the reported
`recipeUniqueness` is `0.0` (`= 0/1`), not `1.0`; the overall score is then
also 0. -/
theorem c5_zero_meals_amended (plan : MealPlan)
    (h : varietyMeals plan = []) :
    (evaluate_meal_variety plan).deterministic.recipeUniqueness = 0 ∧
    (evaluate_meal_variety plan).deterministic.totalRecipes = 1 ∧
    (evaluate_meal_variety plan).score = 0 := by
  have h1 : allRecipes plan = [] := by simp [allRecipes, h]
  have h2 : planCuisines plan = [] := by simp [planCuisines, h]
  have h3 : planProteins plan = [] := by simp [planProteins, h]
  refine ⟨?_, ?_, ?_⟩ <;>
    simp [evaluate_meal_variety, h1, h2, h3, adjacentRepeats, round3, round_eq,
      List.dedup_nil] <;> norm_num

/-- C5 witness: the amended statement applied to the concrete empty plan. -/
theorem c5_zero_meals_witness :
    (evaluate_meal_variety emptyPlan).deterministic.recipeUniqueness = 0 ∧
    (evaluate_meal_variety emptyPlan).deterministic.totalRecipes = 1 ∧
    (evaluate_meal_variety emptyPlan).score = 0 :=
  c5_zero_meals_amended emptyPlan (by decide)

/-! ## C9 -/

/-- C9 counterexample: ids are assigned before the category sort, so in the
returned (sorted) list they need not be positional: for `sugarApplePlan` the
returned list is `[apple (id "item-1"), sugar (id "item-0")]`, and the item
at output position 0 has id `"item-1"`, not `"item-0"`. -/
theorem c9_counterexample :
    (aggregate_ingredients sugarApplePlan).map (fun it => it.id) =
      [itemId 1, itemId 0] ∧
    itemId 0 = pystr "item-0" ∧ itemId 1 = pystr "item-1" := by
  decide

/-- C9 amended: ids `item-0 .. item-(n-1)` are assigned sequentially in
dict-insertion order *before* the category sort; the returned list's ids are
therefore a permutation of `item-0 .. item-(n-1)`, but not necessarily
positional. -/
theorem c9_ids_permutation (plan : MealPlan) :
    List.Perm ((aggregate_ingredients plan).map (fun it => it.id))
      ((List.range (aggregated plan).length).map itemId) := by
  unfold aggregate_ingredients
  have h1 := (List.perm_insertionSort itemLe
    ((aggregated plan).enum.map fun (i, _, item) =>
      { item with id := itemId i, fromRecipes := item.fromRecipes.dedup })).map
    (fun it => it.id)
  have h3 : (((aggregated plan).enum.map fun (i, _, item) =>
      ({ item with id := itemId i,
                   fromRecipes := item.fromRecipes.dedup } : ShoppingItem)).map
        (fun it => it.id)) =
      (List.range (aggregated plan).length).map itemId := by
    rw [← List.enum_map_fst (aggregated plan), List.map_map, List.map_map]
    rfl
  exact h3 ▸ h1

/-! ## C1 -/

/-- Every violation emitted for a restriction carries that restriction, and
its ingredient was not skipped by the safe-compound allowlist. -/
theorem mem_violationsFor {r : PyStr} {names : List PyStr} {v : Violation}
    (hv : v ∈ violationsFor r names) :
    v.restriction = r ∧
      _is_safe_compound v.ingredient (restrictionKey r) = false := by
  unfold violationsFor at hv
  rw [List.mem_filterMap] at hv
  obtain ⟨ing, _, hf⟩ := hv
  by_cases hsafe : _is_safe_compound ing (restrictionKey r)
  · simp [hsafe] at hf
  · simp only [hsafe, Bool.false_eq_true, if_false] at hf
    cases hfind : List.find? (fun keyword => containsSub keyword ing)
        ((alookup (restrictionKey r) ALLERGEN_KEYWORDS).getD []) with
    | none => rw [hfind] at hf; cases hf
    | some kw =>
      rw [hfind] at hf
      cases hf
      exact ⟨rfl, by simpa using hsafe⟩

/-- C1: an ingredient whose lower-cased name contains a safe-compound
substring for an active restriction is skipped entirely for that restriction
— `evaluate_dietary_compliance` records no violation pairing that restriction
with that ingredient, even when the name also contains a banned keyword; in
particular `"unsweetened almond milk"` under `["dairy-free"]` yields zero
violations, score 1, passed true. -/
theorem c1_safe_compound_allowlist :
    (∀ (recipe : Meal) (restrictions : List PyStr) (r ing : PyStr),
      r ∈ restrictions →
      ing ∈ (recipe.ingredients?.getD []).map (fun i => pyLower (i.name?.getD [])) →
      _is_safe_compound ing (restrictionKey r) = true →
      ∀ v ∈ (evaluate_dietary_compliance recipe restrictions).violations,
        ¬(v.restriction = r ∧ v.ingredient = ing)) ∧
    evaluate_dietary_compliance almondMilkRecipe [pystr "dairy-free"] =
      { score := 1, passed := true, violations := [], confidence := 1,
        keywordViolations? := some 0, llmViolations? := some 0,
        checkedRestrictions? := some [pystr "dairy-free"] } := by
  constructor
  · intro recipe restrictions r ing _ _ hsafe v hv hand
    obtain ⟨hvr, hvi⟩ := hand
    by_cases hres : restrictions = []
    · subst hres
      simp [evaluate_dietary_compliance] at hv
    · simp only [evaluate_dietary_compliance, if_neg hres] at hv
      rw [List.mem_flatten] at hv
      obtain ⟨l, hl, hvl⟩ := hv
      rw [List.mem_map] at hl
      obtain ⟨r', _, rfl⟩ := hl
      obtain ⟨hrestr, hnotsafe⟩ := mem_violationsFor hvl
      rw [hvr] at hrestr
      rw [← hrestr, hvi] at hnotsafe
      rw [hsafe] at hnotsafe
      cases hnotsafe
  · decide

/-- C1 witness: the general statement applied to the
`"unsweetened almond milk"` / `"dairy-free"` instance. -/
theorem c1_witness :
    pystr "dairy-free" ∈ [pystr "dairy-free"] ∧
    pystr "unsweetened almond milk" ∈
      (almondMilkRecipe.ingredients?.getD []).map
        (fun i => pyLower (i.name?.getD [])) ∧
    _is_safe_compound (pystr "unsweetened almond milk")
      (restrictionKey (pystr "dairy-free")) = true ∧
    (∀ v ∈ (evaluate_dietary_compliance almondMilkRecipe
        [pystr "dairy-free"]).violations,
      ¬(v.restriction = pystr "dairy-free" ∧
        v.ingredient = pystr "unsweetened almond milk")) :=
  ⟨by decide, by decide, by decide,
   c1_safe_compound_allowlist.1 almondMilkRecipe [pystr "dairy-free"]
     (pystr "dairy-free") (pystr "unsweetened almond milk")
     (by decide) (by decide) (by decide)⟩

/-! ## C2 -/

/-- C2: `check_meal_plan_compliance` scores 1 iff every checked meal passes
(`complianceRate = 1`), and 0 otherwise; in particular the 2-meal plan with
exactly one violating meal gets score 0 and complianceRate 0.5. -/
theorem c2_zero_tolerance :
    (∀ (plan : MealPlan) (restrictions : List PyStr),
      ((check_meal_plan_compliance plan restrictions).score = 1 ↔
        (check_meal_plan_compliance plan restrictions).complianceRate = 1) ∧
      ((check_meal_plan_compliance plan restrictions).score = 1 ∨
        (check_meal_plan_compliance plan restrictions).score = 0) ∧
      ((check_meal_plan_compliance plan restrictions).complianceRate = 1 ↔
        ∀ dm ∈ planMeals plan,
          (evaluate_dietary_compliance dm.2 restrictions).passed = true)) ∧
    (check_meal_plan_compliance twoMealPlan [pystr "dairy-free"]).score = 0 ∧
    (check_meal_plan_compliance twoMealPlan
      [pystr "dairy-free"]).complianceRate = 1 / 2 := by
  refine ⟨fun plan restrictions => ?_, by decide, by decide⟩
  have hscore : (check_meal_plan_compliance plan restrictions).score =
      if (check_meal_plan_compliance plan restrictions).complianceRate = 1
      then 1 else 0 := rfl
  have hrate : (check_meal_plan_compliance plan restrictions).complianceRate =
      if (planMeals plan).length > 0 then
        (((planMeals plan).countP fun dm =>
            (evaluate_dietary_compliance dm.2 restrictions).passed : Nat) : ℚ) /
          ((planMeals plan).length : ℚ)
      else 1 := rfl
  refine ⟨?_, ?_, ?_⟩
  · rw [hscore]
    by_cases h : (check_meal_plan_compliance plan restrictions).complianceRate = 1
    · simp [h]
    · simp only [if_neg h]
      norm_num
      exact h
  · rw [hscore]
    split
    · left; rfl
    · right; rfl
  · rw [hrate]
    by_cases hn : (planMeals plan).length > 0
    · rw [if_pos hn]
      have hne : ((planMeals plan).length : ℚ) ≠ 0 := by
        exact_mod_cast Nat.pos_iff_ne_zero.mp hn
      rw [div_eq_one_iff_eq hne, Nat.cast_inj]
      exact List.countP_eq_length
    · rw [if_neg hn]
      have : planMeals plan = [] := by
        simpa using List.length_eq_zero.mp (by omega)
      simp [this]

/-! ## C3 -/

/-- One dict update, seen through lookups: at the occurrence's own key it
either bumps the existing entry or inserts a fresh one; every other key is
untouched. -/
theorem alookup_addOccurrence (m : List (PyStr × ShoppingItem))
    (occ : Occurrence) (k : PyStr) :
    alookup k (addOccurrence m occ) =
      if occ.key = k then
        some ((alookup k m).elim (freshItem occ) (fun v => bumpItem v occ))
      else alookup k m := by
  induction m with
  | nil => by_cases h : occ.key = k <;> simp [addOccurrence, alookup, h]
  | cons p rest ih =>
    obtain ⟨k', v⟩ := p
    simp only [addOccurrence]
    by_cases h1 : k' = occ.key
    · rw [if_pos h1]
      by_cases h2 : occ.key = k
      · have hk : k' = k := h1.trans h2
        simp [alookup, hk, h2]
      · have hk : ¬ k' = k := fun hh => h2 (h1.symm.trans hh)
        simp [alookup, hk, h2]
    · rw [if_neg h1]
      by_cases h2 : k' = k
      · have hocc : ¬ occ.key = k := fun hh => h1 (h2.trans hh.symm)
        simp [alookup, h2, hocc]
      · simp only [alookup, if_neg h2]
        exact ih

/-- One dict update changes the running amount only at the occurrence's own
key, adding the occurrence's amount there. -/
theorem aggAmount_addOccurrence (m : List (PyStr × ShoppingItem))
    (occ : Occurrence) (k : PyStr) :
    aggAmount (addOccurrence m occ) k =
      if occ.key = k then aggAmount m k + occ.amount else aggAmount m k := by
  unfold aggAmount
  rw [alookup_addOccurrence]
  by_cases h : occ.key = k
  · rw [if_pos h, if_pos h]
    cases hm : alookup k m <;> simp [hm, freshItem, bumpItem]
  · rw [if_neg h, if_neg h]

/-- One dict update changes the stored recipe list only at the occurrence's
own key, appending the occurrence's recipe name there. -/
theorem aggRecipes_addOccurrence (m : List (PyStr × ShoppingItem))
    (occ : Occurrence) (k : PyStr) :
    aggRecipes (addOccurrence m occ) k =
      if occ.key = k then aggRecipes m k ++ [occ.recipeName]
      else aggRecipes m k := by
  unfold aggRecipes
  rw [alookup_addOccurrence]
  by_cases h : occ.key = k
  · rw [if_pos h, if_pos h]
    cases hm : alookup k m <;> simp [hm, freshItem, bumpItem]
  · rw [if_neg h, if_neg h]

/-- Folding occurrences into the dict sums the amounts of all occurrences
with a given key on top of the accumulator's amount. -/
theorem aggAmount_foldl (occs : List Occurrence) :
    ∀ (acc : List (PyStr × ShoppingItem)) (k : PyStr),
      aggAmount (occs.foldl addOccurrence acc) k =
        aggAmount acc k +
          (((occs.filter (fun o => o.key = k)).map (fun o => o.amount)).sum) := by
  induction occs with
  | nil => intro acc k; simp
  | cons o os ih =>
    intro acc k
    simp only [List.foldl_cons]
    rw [ih, aggAmount_addOccurrence]
    by_cases h : o.key = k <;> simp [h, List.filter_cons] <;> ring

/-- Folding occurrences into the dict appends the recipe names of all
occurrences with a given key, in encounter order. -/
theorem aggRecipes_foldl (occs : List Occurrence) :
    ∀ (acc : List (PyStr × ShoppingItem)) (k : PyStr),
      aggRecipes (occs.foldl addOccurrence acc) k =
        aggRecipes acc k ++
          ((occs.filter (fun o => o.key = k)).map (fun o => o.recipeName)) := by
  induction occs with
  | nil => intro acc k; simp
  | cons o os ih =>
    intro acc k
    simp only [List.foldl_cons]
    rw [ih, aggRecipes_addOccurrence]
    by_cases h : o.key = k <;> simp [h, List.filter_cons]

/-- A key is present in the dict iff the accumulator held it or some folded
occurrence carries it. -/
theorem alookup_isSome_foldl (occs : List Occurrence) :
    ∀ (acc : List (PyStr × ShoppingItem)) (k : PyStr),
      (alookup k (occs.foldl addOccurrence acc)).isSome ↔
        ((alookup k acc).isSome ∨ k ∈ occs.map (fun o => o.key)) := by
  induction occs with
  | nil => simp
  | cons o os ih =>
    intro acc k
    simp only [List.foldl_cons, List.map_cons, List.mem_cons]
    rw [ih, alookup_addOccurrence]
    by_cases h : o.key = k
    · simp [h]
    · simp only [if_neg h]
      constructor
      · rintro (h1 | h1)
        · exact Or.inl h1
        · exact Or.inr (Or.inr h1)
      · rintro (h1 | h1 | h1)
        · exact Or.inl h1
        · exact absurd h1.symm h
        · exact Or.inr h1

/-- A lookup succeeds exactly for stored keys. -/
theorem alookup_isSome_iff_mem {α : Type} (k : PyStr) :
    ∀ m : List (PyStr × α), (alookup k m).isSome ↔ k ∈ m.map Prod.fst := by
  intro m
  induction m with
  | nil => simp [alookup]
  | cons p rest ih =>
    obtain ⟨k', v⟩ := p
    by_cases h : k' = k
    · simp [alookup, h]
    · simp only [alookup, if_neg h, List.map_cons, List.mem_cons]
      rw [ih]
      constructor
      · exact Or.inr
      · rintro (h1 | h1)
        · exact absurd h1.symm h
        · exact h1

/-- One dict update either leaves the key list unchanged (repeated key) or
appends the new key at the end. -/
theorem keys_addOccurrence (m : List (PyStr × ShoppingItem))
    (occ : Occurrence) :
    (addOccurrence m occ).map Prod.fst =
      if (alookup occ.key m).isSome then m.map Prod.fst
      else m.map Prod.fst ++ [occ.key] := by
  induction m with
  | nil => simp [addOccurrence, alookup]
  | cons p rest ih =>
    obtain ⟨k', v⟩ := p
    by_cases h1 : k' = occ.key
    · simp [addOccurrence, alookup, h1]
    · have h1' : ¬ occ.key = k' := fun hh => h1 hh.symm
      simp only [addOccurrence, if_neg h1, alookup, if_neg h1',
        List.map_cons]
      rw [ih]
      by_cases h2 : (alookup occ.key rest).isSome <;> simp [h2]

/-- Folding occurrences preserves distinctness of the dict's keys. -/
theorem keys_nodup_foldl (occs : List Occurrence) :
    ∀ acc : List (PyStr × ShoppingItem), (acc.map Prod.fst).Nodup →
      ((occs.foldl addOccurrence acc).map Prod.fst).Nodup := by
  induction occs with
  | nil => intro acc h; simpa using h
  | cons o os ih =>
    intro acc h
    simp only [List.foldl_cons]
    refine ih _ ?_
    rw [keys_addOccurrence]
    by_cases h2 : (alookup o.key acc).isSome
    · simpa [h2] using h
    · rw [if_neg h2]
      have hnot : o.key ∉ acc.map Prod.fst := by
        rw [← alookup_isSome_iff_mem]
        simpa using h2
      simp only [List.nodup_append, List.nodup_cons, List.nodup_nil,
        List.not_mem_nil, not_false_iff, and_true, true_and]
      exact ⟨h, fun a ha hmem => hnot (by simpa [List.mem_singleton.mp hmem] using ha)⟩

/-- C3: occurrences merge into one aggregation entry iff their keys
`normalizedName|normalizedUnit` agree — the dict has pairwise-distinct keys,
holds a key iff some occurrence carries it, and an entry's amount
(resp. recipe list) is the arithmetic sum (resp. concatenation) of exactly
the matching occurrences.  In particular `eggs`/`Eggs` at unit `large` from
two recipes merge into one item with amount 5 and both recipe names, while
the two `flour` entries with different units stay separate. -/
theorem c3_aggregation_merge :
    (∀ plan : MealPlan,
      ((aggregated plan).map Prod.fst).Nodup ∧
      ∀ k : PyStr,
        ((alookup k (aggregated plan)).isSome ↔
          k ∈ (occurrences plan).map (fun o => o.key)) ∧
        aggAmount (aggregated plan) k =
          (((occurrences plan).filter (fun o => o.key = k)).map
            (fun o => o.amount)).sum ∧
        aggRecipes (aggregated plan) k =
          ((occurrences plan).filter (fun o => o.key = k)).map
            (fun o => o.recipeName)) ∧
    (∃ it ∈ aggregate_ingredients mergePlan,
      it.name = pystr "eggs" ∧ it.amount = 5 ∧
      pystr "Recipe A" ∈ it.fromRecipes ∧
      pystr "Eggs Benedict" ∈ it.fromRecipes) ∧
    ((aggregate_ingredients mergePlan).filter
      (fun it => it.name = pystr "eggs")).length = 1 ∧
    ((aggregate_ingredients mergePlan).filter
      (fun it => normalize_ingredient_name it.name = pystr "flour")).length
      = 2 := by
  refine ⟨fun plan => ⟨?_, fun k => ⟨?_, ?_, ?_⟩⟩, by decide, by decide,
    by decide⟩
  · exact keys_nodup_foldl _ _ (by simp)
  · simpa [aggregated, alookup] using alookup_isSome_foldl (occurrences plan) [] k
  · simpa [aggregated, aggAmount, alookup] using aggAmount_foldl (occurrences plan) [] k
  · simpa [aggregated, aggRecipes, alookup] using aggRecipes_foldl (occurrences plan) [] k

/-! ## C10 -/

/-- Every entry of the dict after one update still has `checked = False` and
a non-empty recipe list. -/
theorem addOccurrence_invariant (m : List (PyStr × ShoppingItem))
    (occ : Occurrence)
    (h : ∀ p ∈ m, p.2.checked = false ∧ p.2.fromRecipes ≠ []) :
    ∀ p ∈ addOccurrence m occ,
      p.2.checked = false ∧ p.2.fromRecipes ≠ [] := by
  induction m with
  | nil =>
    intro p hp
    simp only [addOccurrence, List.mem_singleton] at hp
    subst hp
    simp [freshItem]
  | cons q rest ih =>
    obtain ⟨k', v⟩ := q
    intro p hp
    by_cases h1 : k' = occ.key
    · simp only [addOccurrence, if_pos h1, List.mem_cons] at hp
      rcases hp with hp | hp
      · subst hp
        have hv := h (k', v) (List.mem_cons_self _ _)
        simp only [bumpItem] at *
        exact ⟨hv.1, by simp⟩
      · exact h p (List.mem_cons_of_mem _ hp)
    · simp only [addOccurrence, if_neg h1, List.mem_cons] at hp
      rcases hp with hp | hp
      · subst hp
        exact h (k', v) (List.mem_cons_self _ _)
      · exact ih (fun q hq => h q (List.mem_cons_of_mem _ hq)) p hp

/-- The dict invariant holds after folding any occurrence list. -/
theorem foldl_addOccurrence_invariant (occs : List Occurrence) :
    ∀ acc : List (PyStr × ShoppingItem),
      (∀ p ∈ acc, p.2.checked = false ∧ p.2.fromRecipes ≠ []) →
      ∀ p ∈ occs.foldl addOccurrence acc,
        p.2.checked = false ∧ p.2.fromRecipes ≠ [] := by
  induction occs with
  | nil => intro acc h; simpa using h
  | cons o os ih =>
    intro acc h
    simp only [List.foldl_cons]
    exact ih _ (addOccurrence_invariant acc o h)

/-- Members of `enumFrom` are members of the underlying list. -/
theorem snd_mem_of_mem_enumFrom {α : Type} :
    ∀ (l : List α) (n : Nat) (p : Nat × α), p ∈ l.enumFrom n → p.2 ∈ l := by
  intro l
  induction l with
  | nil => intro n p hp; simp [List.enumFrom] at hp
  | cons x xs ih =>
    intro n p hp
    simp only [List.enumFrom, List.mem_cons] at hp
    rcases hp with hp | hp
    · subst hp; exact List.mem_cons_self _ _
    · exact List.mem_cons_of_mem _ (ih (n + 1) p hp)

/-- C10: every shopping item returned by `aggregate_ingredients` has
`checked = False`, and its `fromRecipes` is a non-empty duplicate-free list
of recipe names. -/
theorem c10_item_invariants (plan : MealPlan) :
    ∀ it ∈ aggregate_ingredients plan,
      it.checked = false ∧ it.fromRecipes ≠ [] ∧ it.fromRecipes.Nodup := by
  intro it hit
  unfold aggregate_ingredients at hit
  rw [(List.perm_insertionSort itemLe _).mem_iff] at hit
  rw [List.mem_map] at hit
  obtain ⟨⟨i, p⟩, hp, rfl⟩ := hit
  have hpmem : p ∈ aggregated plan :=
    snd_mem_of_mem_enumFrom _ 0 (i, p) hp
  have hinv := foldl_addOccurrence_invariant (occurrences plan) []
    (by simp) p hpmem
  refine ⟨hinv.1, ?_, List.nodup_dedup _⟩
  simpa [List.dedup_eq_nil] using hinv.2

/-- C10 witness: the invariants instantiated at the `apple` item of the
concrete `sugarApplePlan`. -/
theorem c10_witness :
    appleItem.checked = false ∧ appleItem.fromRecipes ≠ [] ∧
      appleItem.fromRecipes.Nodup :=
  c10_item_invariants sugarApplePlan appleItem (by decide)

/-! ## C4 -/

/-- `flatMap` over a mapped list composes the functions. -/
theorem flatMap_map_comp {α β γ : Type} (f : α → β) (g : β → List γ) :
    ∀ l : List α, (l.map f).flatMap g = l.flatMap (fun x => g (f x)) := by
  intro l
  induction l with
  | nil => rfl
  | cons x xs ih => simp [ih]

/-- `map` after `flatMap` pushes inside. -/
theorem map_flatMap_comp {α β γ : Type} (g : α → List β) (f : β → γ) :
    ∀ l : List α, (l.flatMap g).map f = l.flatMap (fun x => (g x).map f) := by
  intro l
  induction l with
  | nil => rfl
  | cons x xs ih => simp [ih]

/-- Filling an ingredient's absent fields with the `.get` defaults does not
change the occurrence the aggregation loop builds from it. -/
theorem mkOccurrence_fillIngredient (r : PyStr) (i : Ingredient) :
    mkOccurrence r (fillIngredient i) = mkOccurrence r i := rfl

/-- Filling absent fields does not change the aggregation loop's iterations. -/
theorem occurrences_fillPlan (p : MealPlan) :
    occurrences (fillPlan p) = occurrences p := by
  unfold occurrences fillPlan fillDay fillMeal
  simp [flatMap_map_comp, List.map_map, Function.comp_def,
    mkOccurrence_fillIngredient]

/-- Filling absent fields does not change the flattened variety meal list
except through `fillMeal` itself. -/
theorem varietyMeals_fillPlan (p : MealPlan) :
    varietyMeals (fillPlan p) = (varietyMeals p).map fillMeal := by
  unfold varietyMeals fillPlan fillDay
  simp [flatMap_map_comp, map_flatMap_comp]

/-- Filling absent fields maps the compliance loop's `(day, meal)` pairs
componentwise. -/
theorem planMeals_fillPlan (p : MealPlan) :
    planMeals (fillPlan p) =
      (planMeals p).map (fun dm => (fillDay dm.1, fillMeal dm.2)) := by
  unfold planMeals fillPlan
  simp [flatMap_map_comp, map_flatMap_comp, List.map_map, Function.comp_def,
    fillDay]

/-- Filling absent fields does not change a recipe's compliance result. -/
theorem dietary_fillMeal (r : Meal) (rs : List PyStr) :
    evaluate_dietary_compliance (fillMeal r) rs =
      evaluate_dietary_compliance r rs := by
  unfold evaluate_dietary_compliance fillMeal
  simp [List.map_map, Function.comp_def, fillIngredient]

/-- `fillDay` leaves the day name unchanged. -/
theorem fillDay_dayName (d : Day) : (fillDay d).dayName? = d.dayName? := rfl

/-- `fillMeal` leaves the meal type unchanged. -/
theorem fillMeal_mealType (m : Meal) : (fillMeal m).mealType? = m.mealType? :=
  rfl

/-- `fillMeal` leaves the recipe name unchanged. -/
theorem fillMeal_recipeName (m : Meal) :
    (fillMeal m).recipeName? = m.recipeName? := rfl

/-- Filling absent fields does not change a plan's compliance result. -/
theorem check_fillPlan (p : MealPlan) (rs : List PyStr) :
    check_meal_plan_compliance (fillPlan p) rs =
      check_meal_plan_compliance p rs := by
  unfold check_meal_plan_compliance
  rw [planMeals_fillPlan]
  simp [List.countP_map, flatMap_map_comp, Function.comp_def,
    dietary_fillMeal, fillDay_dayName, fillMeal_mealType, fillMeal_recipeName]

/-- Filling absent fields does not change the flattened recipe-name list. -/
theorem allRecipes_fillPlan (p : MealPlan) :
    allRecipes (fillPlan p) = allRecipes p := by
  unfold allRecipes
  rw [varietyMeals_fillPlan]
  simp [List.map_map, Function.comp_def, fillMeal]

/-- Filling absent fields does not change the flattened cuisine list. -/
theorem planCuisines_fillPlan (p : MealPlan) :
    planCuisines (fillPlan p) = planCuisines p := by
  unfold planCuisines
  rw [varietyMeals_fillPlan]
  simp [List.map_map, Function.comp_def, fillMeal]

/-- Filling absent fields does not change the protein keyword multiset. -/
theorem planProteins_fillPlan (p : MealPlan) :
    planProteins (fillPlan p) = planProteins p := by
  unfold planProteins
  rw [varietyMeals_fillPlan]
  simp [flatMap_map_comp, Function.comp_def, fillMeal, fillIngredient,
    List.filterMap_map]

/-- Filling absent fields does not change the variety result. -/
theorem variety_fillPlan (p : MealPlan) :
    evaluate_meal_variety (fillPlan p) = evaluate_meal_variety p := by
  unfold evaluate_meal_variety
  rw [allRecipes_fillPlan, planCuisines_fillPlan, planProteins_fillPlan]

/-- When every record has a `name` key, the normalization loop succeeds. -/
theorem normalizedNames_ok (l : List Ingredient)
    (h : ∀ i ∈ l, i.name?.isSome = true) :
    ∃ ns, normalizedNames l = Except.ok ns := by
  induction l with
  | nil => exact ⟨[], rfl⟩
  | cons i rest ih =>
    obtain ⟨n, hn⟩ := Option.isSome_iff_exists.mp
      (h i (List.mem_cons_self _ _))
    obtain ⟨ns, hns⟩ := ih (fun j hj => h j (List.mem_cons_of_mem _ hj))
    exact ⟨normalize_ingredient_name n :: ns,
      by simp [normalizedNames, hn, hns]⟩

/-- C4 counterexample to the claim as stated: an ingredient record without a
`name` key makes `deterministic_completeness_check` raise `KeyError` (the
source subscripts `ing['name']` instead of using `.get`), rather than
treating the missing name as an empty string. -/
theorem c4_counterexample :
    deterministic_completeness_check [{ name? := none }] [] =
      Except.error (pystr "KeyError: name") := by
  decide

/-- C4 amended: `normalize_unit`, `normalize_ingredient_name` and
`infer_category` are total on all strings by construction, and
`aggregate_ingredients`, `evaluate_dietary_compliance`,
`check_meal_plan_compliance` and `evaluate_meal_variety` are total over
well-formed maps, treating absent optional fields (ingredient name, amount,
unit, category; meals; days) exactly as the defaults empty string / zero /
empty list — but `deterministic_completeness_check` is the exception: it
requires every record to carry a `name` key (it raises `KeyError`
otherwise), succeeding whenever all names are present. -/
theorem c4_totality_amended :
    (∀ plan : MealPlan,
      aggregate_ingredients (fillPlan plan) = aggregate_ingredients plan) ∧
    (∀ (recipe : Meal) (restrictions : List PyStr),
      evaluate_dietary_compliance (fillMeal recipe) restrictions =
        evaluate_dietary_compliance recipe restrictions) ∧
    (∀ (plan : MealPlan) (restrictions : List PyStr),
      check_meal_plan_compliance (fillPlan plan) restrictions =
        check_meal_plan_compliance plan restrictions) ∧
    (∀ plan : MealPlan,
      evaluate_meal_variety (fillPlan plan) = evaluate_meal_variety plan) ∧
    (∀ meal_ingredients shopping_items : List Ingredient,
      (∀ i ∈ meal_ingredients, i.name?.isSome = true) →
      (∀ i ∈ shopping_items, i.name?.isSome = true) →
      (deterministic_completeness_check meal_ingredients
        shopping_items).isOk = true) := by
  refine ⟨?_, dietary_fillMeal, check_fillPlan, variety_fillPlan, ?_⟩
  · intro plan
    unfold aggregate_ingredients aggregated
    rw [occurrences_fillPlan]
  · intro mi si h1 h2
    obtain ⟨ns1, hns1⟩ := normalizedNames_ok mi h1
    obtain ⟨ns2, hns2⟩ := normalizedNames_ok si h2
    simp [deterministic_completeness_check, hns1, hns2, Except.isOk,
      Except.toBool]

/-- C4 witness: the amended statement applied to concrete inputs. -/
theorem c4_witness :
    aggregate_ingredients (fillPlan mergePlan) =
      aggregate_ingredients mergePlan ∧
    (deterministic_completeness_check [{ name? := some (pystr "eggs") }]
      []).isOk = true :=
  ⟨c4_totality_amended.1 mergePlan,
   c4_totality_amended.2.2.2.2 [{ name? := some (pystr "eggs") }] []
     (by decide) (by decide)⟩

/-! ## C8 -/

/-- `round3` is monotone. -/
theorem round3_mono {x y : ℚ} (h : x ≤ y) : round3 x ≤ round3 y := by
  unfold round3
  have hr : round (1000 * x) ≤ round (1000 * y) := by
    rw [round_eq, round_eq]
    exact Int.floor_mono (by linarith)
  rw [div_le_div_right (by norm_num : (0:ℚ) < 1000)]
  exact_mod_cast hr

/-- `round3` commutes with adding a tenth (a tenth is 100 thousandths). -/
theorem round3_add_tenth (x : ℚ) : round3 (x + 1 / 10) = round3 x + 1 / 10 := by
  unfold round3
  have h : (1000 : ℚ) * (x + 1 / 10) = 1000 * x + ((100 : ℤ) : ℚ) := by
    push_cast; ring
  rw [h, round_add_int]
  push_cast
  ring

/-- Arithmetic core of the amended variety-penalty claim: with equal cuisine
and protein terms, a not-smaller uniqueness term and at least one more
adjacent repeat, the rounded clamped score drops by at least `0.1` —
provided the worse score is not clamped at 0. -/
theorem score_gap_core (uA uB c q : ℚ) (adjA adjB : Nat)
    (huAB : uA ≤ uB) (huB1 : uB ≤ 1)
    (hc1 : c ≤ 1) (hq1 : q ≤ 1)
    (hrep : adjB + 1 ≤ adjA)
    (hpos : 0 < round3 (max 0 (min 1
      (uA * (4/10) + c * (3/10) + q * (3/10) - (adjA : ℚ) * (1/10))))) :
    round3 (max 0 (min 1
        (uA * (4/10) + c * (3/10) + q * (3/10) - (adjA : ℚ) * (1/10)))) + 1/10
      ≤ round3 (max 0 (min 1
        (uB * (4/10) + c * (3/10) + q * (3/10) - (adjB : ℚ) * (1/10)))) := by
  set rawA := uA * (4/10) + c * (3/10) + q * (3/10) - (adjA : ℚ) * (1/10)
    with hrawA
  set rawB := uB * (4/10) + c * (3/10) + q * (3/10) - (adjB : ℚ) * (1/10)
    with hrawB
  clear_value rawA rawB
  have hcast : (adjB : ℚ) + 1 ≤ (adjA : ℚ) := by exact_mod_cast hrep
  have hgap : rawA + 1/10 ≤ rawB := by
    rw [hrawA, hrawB]
    linarith
  have hadjB0 : (0 : ℚ) ≤ (adjB : ℚ) := Nat.cast_nonneg _
  have hadjA0 : (0 : ℚ) ≤ (adjA : ℚ) := Nat.cast_nonneg _
  have hrawA1 : rawA ≤ 1 := by
    rw [hrawA]
    linarith
  have hrawB1 : rawB ≤ 1 := by
    rw [hrawB]
    linarith
  have h0A : 0 < rawA := by
    by_contra hcon
    push_neg at hcon
    have hminA : min 1 rawA ≤ (0 : ℚ) := le_trans (min_le_right _ _) hcon
    have hclamp : max 0 (min 1 rawA) = 0 := max_eq_left hminA
    rw [hclamp] at hpos
    have hr0 : round3 (0 : ℚ) = 0 := by
      unfold round3
      norm_num
    rw [hr0] at hpos
    exact lt_irrefl 0 hpos
  have hclampA : max 0 (min 1 rawA) = rawA := by
    rw [min_eq_right hrawA1, max_eq_right h0A.le]
  have h0B : 0 < rawB := by linarith
  have hclampB : max 0 (min 1 rawB) = rawB := by
    rw [min_eq_right hrawB1, max_eq_right h0B.le]
  rw [hclampA, hclampB]
  calc round3 rawA + 1/10 = round3 (rawA + 1/10) := (round3_add_tenth _).symm
    _ ≤ round3 rawB := round3_mono hgap

/-- The score field of `evaluate_meal_variety`, written out. -/
theorem variety_score_eq (p : MealPlan) :
    (evaluate_meal_variety p).score =
      round3 (max 0 (min 1
        (((allRecipes p).dedup.length : ℚ) /
            ((if (allRecipes p).length = 0 then 1
              else (allRecipes p).length : Nat) : ℚ) * (4/10) +
          min (((planCuisines p).dedup.length : ℚ) / 3) 1 * (3/10) +
          min (((planProteins p).dedup.length : ℚ) / 3) 1 * (3/10) -
          (adjacentRepeats (allRecipes p) : ℚ) * (1/10)))) := rfl

/-- C8 amended: consider two plans with the same cuisines and proteins whose
recipe-name sequences have the same length, where the first plan has at
least one more adjacent repeat and at most as many distinct names.  If the
first plan's score is not clamped to 0, its score is at least `0.1` below
the second plan's.  (Unconditionally the claim fails: clamping at 0 can
shrink the gap; see the counterexample.) -/
theorem c8_penalty_amended (pA pB : MealPlan)
    (hcui : planCuisines pA = planCuisines pB)
    (hpro : planProteins pA = planProteins pB)
    (hlen : (allRecipes pA).length = (allRecipes pB).length)
    (hded : (allRecipes pA).dedup.length ≤ (allRecipes pB).dedup.length)
    (hrep : adjacentRepeats (allRecipes pB) + 1 ≤ adjacentRepeats (allRecipes pA))
    (hpos : 0 < (evaluate_meal_variety pA).score) :
    (evaluate_meal_variety pA).score + 1/10 ≤
      (evaluate_meal_variety pB).score := by
  rw [variety_score_eq pA, variety_score_eq pB, hcui, hpro, hlen] at *
  set t : ℚ := ((if (allRecipes pB).length = 0 then 1
    else (allRecipes pB).length : Nat) : ℚ) with ht
  have ht0 : 0 < t := by
    rw [ht]
    by_cases h : (allRecipes pB).length = 0 <;> simp [h]
    omega
  have hdedB : (allRecipes pB).dedup.length ≤
      (if (allRecipes pB).length = 0 then 1 else (allRecipes pB).length) := by
    have hsub := ((allRecipes pB).dedup_sublist).length_le
    by_cases h : (allRecipes pB).length = 0 <;> simp [h] <;> omega
  apply score_gap_core _ _ _ _ _ _ ?_ ?_ ?_ ?_ hrep hpos
  · rw [div_le_div_right ht0]
    exact_mod_cast hded
  · rw [div_le_one ht0, ht]
    exact_mod_cast hdedB
  · exact min_le_right _ _
  · exact min_le_right _ _

/-- C8 counterexample to the claim as stated: `repeatPlan` (`a a b b c c c`)
has one more adjacent repeat than the otherwise-identical `noRepeatPlan`
(`a a b b c c d`), but its raw score clamps to 0, so the score difference is
only 0.029 < 0.1. -/
theorem c8_counterexample :
    (allRecipes repeatPlan).take 6 = (allRecipes noRepeatPlan).take 6 ∧
    allRecipes repeatPlan = [pystr "a", pystr "a", pystr "b", pystr "b",
      pystr "c", pystr "c", pystr "c"] ∧
    allRecipes noRepeatPlan = [pystr "a", pystr "a", pystr "b", pystr "b",
      pystr "c", pystr "c", pystr "d"] ∧
    adjacentRepeats (allRecipes repeatPlan) =
      adjacentRepeats (allRecipes noRepeatPlan) + 1 ∧
    (evaluate_meal_variety repeatPlan).score = 0 ∧
    (evaluate_meal_variety noRepeatPlan).score = 29 / 1000 ∧
    (evaluate_meal_variety noRepeatPlan).score -
        (evaluate_meal_variety repeatPlan).score < 1 / 10 := by
  refine ⟨by decide, by decide, by decide, by decide, by decide, by decide, ?_⟩
  have h1 : (evaluate_meal_variety repeatPlan).score = 0 := by decide
  have h2 : (evaluate_meal_variety noRepeatPlan).score = 29 / 1000 := by decide
  rw [h1, h2]
  norm_num

/-- C8 witness: the amended statement applied to the concrete pair
`x x y` (one adjacent repeat) versus `x z y` (no repeat). -/
theorem c8_witness :
    0 < (evaluate_meal_variety smallRepeatPlan).score ∧
    (evaluate_meal_variety smallRepeatPlan).score + 1/10 ≤
      (evaluate_meal_variety smallNoRepeatPlan).score := by
  have hpos : 0 < (evaluate_meal_variety smallRepeatPlan).score := by decide
  exact ⟨hpos, c8_penalty_amended smallRepeatPlan smallNoRepeatPlan
    (by decide) (by decide) (by decide) (by decide) (by decide) hpos⟩

/-! ## C7 -/

/-- ASCII lower-casing is idempotent on one code point. -/
theorem lowerChar_idem (c : Nat) : lowerChar (lowerChar c) = lowerChar c := by
  unfold lowerChar
  split_ifs <;> omega

/-- Mapping a function that fixes every member is the identity. -/
theorem map_id_of_mem {f : Nat → Nat} :
    ∀ {l : List Nat}, (∀ c ∈ l, f c = c) → l.map f = l := by
  intro l
  induction l with
  | nil => intro _; rfl
  | cons c rest ih =>
    intro h
    simp only [List.map_cons]
    rw [h c (List.mem_cons_self _ _), ih (fun d hd => h d (List.mem_cons_of_mem _ hd))]

/-- Members of `dropWhile` are members of the list. -/
theorem mem_of_mem_dropWhile {p : Nat → Bool} {c : Nat} :
    ∀ {l : List Nat}, c ∈ l.dropWhile p → c ∈ l := by
  intro l
  induction l with
  | nil => intro h; simpa using h
  | cons d rest ih =>
    intro h
    rw [List.dropWhile_cons] at h
    by_cases hp : p d
    · simp only [hp, if_true] at h
      exact List.mem_cons_of_mem _ (ih h)
    · simpa [hp] using h

/-- Members of `pyStrip` are members of the string. -/
theorem mem_of_mem_pyStrip {c : Nat} {l : PyStr} (h : c ∈ pyStrip l) :
    c ∈ l := by
  unfold pyStrip at h
  rw [List.mem_reverse] at h
  have h2 := mem_of_mem_dropWhile h
  rw [List.mem_reverse] at h2
  exact mem_of_mem_dropWhile h2

/-- Members of `rstripS` are members of the string. -/
theorem mem_of_mem_rstripS {c : Nat} {l : PyStr} (h : c ∈ rstripS l) :
    c ∈ l := by
  unfold rstripS at h
  rw [List.mem_reverse] at h
  have h2 := mem_of_mem_dropWhile h
  rwa [List.mem_reverse] at h2

/-- Every code point of a lower-cased string is fixed by lower-casing. -/
theorem lowerChar_fix_of_mem_pyLower {c : Nat} {l : PyStr}
    (h : c ∈ pyLower l) : lowerChar c = c := by
  unfold pyLower at h
  rw [List.mem_map] at h
  obtain ⟨d, _, rfl⟩ := h
  exact lowerChar_idem d

/-- `dropWhile` is idempotent. -/
theorem dropWhile_idem (p : Nat → Bool) :
    ∀ l : List Nat, (l.dropWhile p).dropWhile p = l.dropWhile p := by
  intro l
  induction l with
  | nil => rfl
  | cons d rest ih =>
    rw [List.dropWhile_cons]
    by_cases hp : p d
    · simpa [hp] using ih
    · simp [List.dropWhile_cons, hp]

/-- `rstrip('s')` is idempotent. -/
theorem rstripS_idem (l : PyStr) : rstripS (rstripS l) = rstripS l := by
  unfold rstripS
  rw [List.reverse_reverse, dropWhile_idem]

/-- A list whose head does not satisfy `p` survives `dropWhile p`. -/
theorem dropWhile_eq_self_of_head {p : Nat → Bool} :
    ∀ {l : List Nat}, (∀ c, l.head? = some c → p c = false) →
      l.dropWhile p = l := by
  intro l h
  cases l with
  | nil => rfl
  | cons d rest =>
    have := h d rfl
    simp [List.dropWhile_cons, this]

/-- The head of a list is a member. -/
theorem mem_of_head?_eq {c : Nat} {l : List Nat} (h : l.head? = some c) :
    c ∈ l := by
  cases l with
  | nil => cases h
  | cons d rest =>
    cases h
    exact List.mem_cons_self _ _

/-- A string whose first and last code points are not whitespace survives
`strip()`. -/
theorem pyStrip_eq_self {l : PyStr}
    (h1 : ∀ c, l.head? = some c → isSpace c = false)
    (h2 : ∀ c, l.reverse.head? = some c → isSpace c = false) :
    pyStrip l = l := by
  unfold pyStrip
  rw [dropWhile_eq_self_of_head h1, dropWhile_eq_self_of_head h2,
    List.reverse_reverse]

/-- Members of `removeSubAux` are members of the input. -/
theorem mem_of_mem_removeSubAux (pat : PyStr) {c : Nat} :
    ∀ (fuel : Nat) (s : PyStr), c ∈ removeSubAux pat fuel s → c ∈ s := by
  intro fuel
  induction fuel with
  | zero => intro s h; exact h
  | succ fuel ih =>
    intro s h
    cases s with
    | nil => simp [removeSubAux] at h
    | cons d rest =>
      simp only [removeSubAux] at h
      by_cases hp : pat.isPrefixOf (d :: rest)
      · rw [if_pos hp] at h
        exact List.mem_cons_of_mem _
          (List.drop_subset _ rest (ih _ h))
      · rw [if_neg hp] at h
        rcases List.mem_cons.mp h with h | h
        · exact h ▸ List.mem_cons_self _ _
        · exact List.mem_cons_of_mem _ (ih _ h)

/-- Members of `removeSub` are members of the input. -/
theorem mem_of_mem_removeSub {pat : PyStr} {c : Nat} {s : PyStr}
    (h : c ∈ removeSub pat s) : c ∈ s := by
  unfold removeSub at h
  by_cases hp : pat = []
  · rwa [if_pos hp] at h
  · rw [if_neg hp] at h
    exact mem_of_mem_removeSubAux pat _ s h

/-- If the pattern does not occur, `removeSubAux` is the identity. -/
theorem removeSubAux_of_not_contains (pat : PyStr) :
    ∀ (fuel : Nat) (s : PyStr), containsSub pat s = false →
      removeSubAux pat fuel s = s := by
  intro fuel
  induction fuel with
  | zero => intro s _; rfl
  | succ fuel ih =>
    intro s h
    cases s with
    | nil => rfl
    | cons d rest =>
      simp only [containsSub, Bool.or_eq_false_iff] at h
      simp only [removeSubAux, h.1, Bool.false_eq_true, if_false]
      rw [ih rest h.2]

/-- If the pattern does not occur, `str.replace(pat, '')` is the identity. -/
theorem removeSub_of_not_contains {pat s : PyStr}
    (h : containsSub pat s = false) : removeSub pat s = s := by
  unfold removeSub
  by_cases hp : pat = []
  · rw [if_pos hp]
  · rw [if_neg hp]
    exact removeSubAux_of_not_contains pat _ s h

/-- Folding modifier removals over a string none of them occurs in is the
identity. -/
theorem foldl_removeSub_of_not_contains :
    ∀ (mods : List PyStr) (t : PyStr),
      (∀ m ∈ mods, containsSub m t = false) →
      mods.foldl (fun n m => removeSub m n) t = t := by
  intro mods
  induction mods with
  | nil => intro t _; rfl
  | cons m rest ih =>
    intro t h
    simp only [List.foldl_cons]
    rw [removeSub_of_not_contains (h m (List.mem_cons_self _ _))]
    exact ih t (fun m' hm' => h m' (List.mem_cons_of_mem _ hm'))

/-- Members of a modifier-removal fold are members of the input. -/
theorem mem_of_mem_foldl_removeSub {c : Nat} :
    ∀ (mods : List PyStr) (t : PyStr),
      c ∈ mods.foldl (fun n m => removeSub m n) t → c ∈ t := by
  intro mods
  induction mods with
  | nil => intro t h; exact h
  | cons m rest ih =>
    intro t h
    simp only [List.foldl_cons] at h
    exact mem_of_mem_removeSub (ih _ h)

/-- Every word `split()` produces is non-empty and whitespace-free (stated
for the worker with its accumulator invariant). -/
theorem pyWordsAux_words_good :
    ∀ (s acc : PyStr), (∀ c ∈ acc, isSpace c = false) →
      ∀ w ∈ pyWordsAux acc s, w ≠ [] ∧ ∀ c ∈ w, isSpace c = false := by
  intro s
  induction s with
  | nil =>
    intro acc hacc w hw
    simp only [pyWordsAux] at hw
    by_cases h : acc = []
    · simp [h] at hw
    · rw [if_neg h] at hw
      rcases List.mem_singleton.mp hw with rfl
      exact ⟨by simpa using h, fun d hd => hacc d (List.mem_reverse.mp hd)⟩
  | cons c rest ih =>
    intro acc hacc w hw
    simp only [pyWordsAux] at hw
    by_cases hsp : isSpace c = true
    · rw [if_pos hsp] at hw
      by_cases h : acc = []
      · rw [if_pos h] at hw
        exact ih [] (by simp) w hw
      · rw [if_neg h] at hw
        rcases List.mem_cons.mp hw with rfl | hw
        · exact ⟨by simpa using h, fun d hd => hacc d (List.mem_reverse.mp hd)⟩
        · exact ih [] (by simp) w hw
    · rw [if_neg hsp] at hw
      refine ih (c :: acc) ?_ w hw
      intro d hd
      rcases List.mem_cons.mp hd with rfl | hd
      · simpa using hsp
      · exact hacc d hd

/-- Code points of a produced word come from the accumulator or the input. -/
theorem mem_word_of_pyWordsAux :
    ∀ (s acc w : PyStr) (c : Nat), w ∈ pyWordsAux acc s → c ∈ w →
      c ∈ acc ∨ c ∈ s := by
  intro s
  induction s with
  | nil =>
    intro acc w c hw hc
    simp only [pyWordsAux] at hw
    by_cases h : acc = []
    · simp [h] at hw
    · rw [if_neg h] at hw
      rcases List.mem_singleton.mp hw with rfl
      exact Or.inl (List.mem_reverse.mp hc)
  | cons d rest ih =>
    intro acc w c hw hc
    simp only [pyWordsAux] at hw
    by_cases hsp : isSpace d = true
    · rw [if_pos hsp] at hw
      by_cases h : acc = []
      · rw [if_pos h] at hw
        rcases ih [] w c hw hc with h1 | h1
        · simp at h1
        · exact Or.inr (List.mem_cons_of_mem _ h1)
      · rw [if_neg h] at hw
        rcases List.mem_cons.mp hw with rfl | hw
        · exact Or.inl (List.mem_reverse.mp hc)
        · rcases ih [] w c hw hc with h1 | h1
          · simp at h1
          · exact Or.inr (List.mem_cons_of_mem _ h1)
    · rw [if_neg hsp] at hw
      rcases ih (d :: acc) w c hw hc with h1 | h1
      · rcases List.mem_cons.mp h1 with rfl | h1
        · exact Or.inr (List.mem_cons_self _ _)
        · exact Or.inl h1
      · exact Or.inr (List.mem_cons_of_mem _ h1)

/-- Feeding a whitespace-free word into the splitter accumulates it. -/
theorem pyWordsAux_append :
    ∀ (w : PyStr), (∀ c ∈ w, isSpace c = false) →
      ∀ (acc s : PyStr),
        pyWordsAux acc (w ++ s) = pyWordsAux (w.reverse ++ acc) s := by
  intro w
  induction w with
  | nil => intro _ acc s; simp
  | cons d w' ih =>
    intro hw acc s
    have hd : isSpace d = false := hw d (List.mem_cons_self _ _)
    simp only [List.cons_append, pyWordsAux, hd, Bool.false_eq_true, if_false]
    show pyWordsAux (d :: acc) (w' ++ s) = pyWordsAux ((d :: w').reverse ++ acc) s
    rw [ih (fun c hc => hw c (List.mem_cons_of_mem _ hc)) (d :: acc) s]
    simp [List.reverse_cons, List.append_assoc]

/-- Joining non-empty words yields a non-empty string. -/
theorem joinWords_ne_nil :
    ∀ ws : List PyStr, ws ≠ [] → (∀ w ∈ ws, w ≠ []) → joinWords ws ≠ []
  | [], h, _ => absurd rfl h
  | [w], _, h => by
    simpa [joinWords] using h w (List.mem_singleton.mpr rfl)
  | w :: w' :: ws, _, h => by
    have := h w (List.mem_cons_self _ _)
    simp [joinWords, this]

/-- Splitting a join of good words gives the words back. -/
theorem pyWords_joinWords :
    ∀ ws : List PyStr,
      (∀ w ∈ ws, w ≠ [] ∧ ∀ c ∈ w, isSpace c = false) →
      pyWords (joinWords ws) = ws
  | [], _ => rfl
  | [w], h => by
    have hw := h w (List.mem_singleton.mpr rfl)
    unfold pyWords
    rw [show joinWords [w] = w ++ [] by simp [joinWords]]
    rw [pyWordsAux_append w hw.2 [] []]
    simp only [pyWordsAux, List.append_nil]
    rw [if_neg (by simpa using hw.1)]
    simp
  | w :: w' :: ws, h => by
    have hw := h w (List.mem_cons_self _ _)
    have hrest : ∀ v ∈ w' :: ws, v ≠ [] ∧ ∀ c ∈ v, isSpace c = false :=
      fun v hv => h v (List.mem_cons_of_mem _ hv)
    have ih := pyWords_joinWords (w' :: ws) hrest
    unfold pyWords
    rw [show joinWords (w :: w' :: ws) = w ++ 32 :: joinWords (w' :: ws)
      from rfl]
    rw [pyWordsAux_append w hw.2 [] _]
    simp only [pyWordsAux, List.append_nil]
    rw [if_pos (by decide : isSpace 32 = true),
      if_neg (by simpa using hw.1)]
    rw [List.reverse_reverse]
    exact congrArg (w :: ·) ih

/-- The first code point of a join of non-empty words lies in one of the
words. -/
theorem head_joinWords :
    ∀ ws : List PyStr, (∀ w ∈ ws, w ≠ []) →
      ∀ c : Nat, (joinWords ws).head? = some c → ∃ w ∈ ws, c ∈ w
  | [], _, c, hc => by cases hc
  | [w], _, c, hc => ⟨w, List.mem_singleton.mpr rfl, mem_of_head?_eq hc⟩
  | w :: w' :: ws, h, c, hc => by
    have hw := h w (List.mem_cons_self _ _)
    cases hww : w with
    | nil => exact absurd hww hw
    | cons d w0 =>
      subst hww
      rw [show joinWords ((d :: w0) :: w' :: ws) =
        (d :: w0) ++ 32 :: joinWords (w' :: ws) from rfl] at hc
      simp only [List.cons_append, List.head?_cons, Option.some.injEq] at hc
      exact ⟨d :: w0, List.mem_cons_self _ _,
        by rw [← hc]; exact List.mem_cons_self _ _⟩

/-- The last code point of a join of non-empty words lies in one of the
words. -/
theorem revhead_joinWords :
    ∀ ws : List PyStr, (∀ w ∈ ws, w ≠ []) →
      ∀ c : Nat, (joinWords ws).reverse.head? = some c → ∃ w ∈ ws, c ∈ w
  | [], _, c, hc => by cases hc
  | [w], _, c, hc =>
    ⟨w, List.mem_singleton.mpr rfl,
      List.mem_reverse.mp (mem_of_head?_eq hc)⟩
  | w :: w' :: ws, h, c, hc => by
    have hrest : ∀ v ∈ w' :: ws, v ≠ [] :=
      fun v hv => h v (List.mem_cons_of_mem _ hv)
    have hJ : joinWords (w' :: ws) ≠ [] :=
      joinWords_ne_nil _ (by simp) hrest
    rw [show joinWords (w :: w' :: ws) = w ++ 32 :: joinWords (w' :: ws)
      from rfl] at hc
    rw [List.reverse_append, List.reverse_cons, List.append_assoc] at hc
    cases hrev : (joinWords (w' :: ws)).reverse with
    | nil => exact absurd (by simpa using hrev) hJ
    | cons e t =>
      rw [hrev, List.cons_append, List.head?_cons, Option.some.injEq] at hc
      obtain ⟨v, hv, hcv⟩ := revhead_joinWords (w' :: ws) hrest c
        (by rw [hrev, hc]; rfl)
      exact ⟨v, List.mem_cons_of_mem _ hv, hcv⟩

/-- Code points of a join are the separator or come from a word. -/
theorem mem_joinWords :
    ∀ (ws : List PyStr) (c : Nat), c ∈ joinWords ws →
      c = 32 ∨ ∃ w ∈ ws, c ∈ w
  | [], c, hc => by cases hc
  | [w], c, hc => Or.inr ⟨w, List.mem_singleton.mpr rfl, hc⟩
  | w :: w' :: ws, c, hc => by
    rw [show joinWords (w :: w' :: ws) = w ++ 32 :: joinWords (w' :: ws)
      from rfl] at hc
    rcases List.mem_append.mp hc with hc | hc
    · exact Or.inr ⟨w, List.mem_cons_self _ _, hc⟩
    · rcases List.mem_cons.mp hc with rfl | hc
      · exact Or.inl rfl
      · rcases mem_joinWords (w' :: ws) c hc with h32 | ⟨v, hv, hcv⟩
        · exact Or.inl h32
        · exact Or.inr ⟨v, List.mem_cons_of_mem _ hv, hcv⟩

/-- The words of any string are non-empty and whitespace-free. -/
theorem words_good (y : PyStr) :
    ∀ w ∈ pyWords y, w ≠ [] ∧ ∀ c ∈ w, isSpace c = false :=
  pyWordsAux_words_good y [] (by simp)

/-- Whitespace collapsing is idempotent. -/
theorem collapseWs_idem (y : PyStr) :
    collapseWs (collapseWs y) = collapseWs y := by
  show joinWords (pyWords (joinWords (pyWords y))) = joinWords (pyWords y)
  rw [pyWords_joinWords _ (words_good y)]

/-- A collapsed string survives `strip()`. -/
theorem pyStrip_collapseWs (y : PyStr) :
    pyStrip (collapseWs y) = collapseWs y := by
  unfold collapseWs
  apply pyStrip_eq_self
  · intro c hc
    obtain ⟨w, hw, hcw⟩ :=
      head_joinWords (pyWords y) (fun w hw => (words_good y w hw).1) c hc
    exact (words_good y w hw).2 c hcw
  · intro c hc
    obtain ⟨w, hw, hcw⟩ :=
      revhead_joinWords (pyWords y) (fun w hw => (words_good y w hw).1) c hc
    exact (words_good y w hw).2 c hcw

/-- Code points of a collapsed string are the space or come from the input. -/
theorem mem_collapseWs {c : Nat} {y : PyStr} (h : c ∈ collapseWs y) :
    c = 32 ∨ c ∈ y := by
  rcases mem_joinWords _ _ h with h32 | ⟨w, hw, hcw⟩
  · exact Or.inl h32
  · rcases mem_word_of_pyWordsAux y [] w c hw hcw with h1 | h1
    · simp at h1
    · exact Or.inr h1

/-- Every `unit_map` value is already lower-case, stripped, free of trailing
`'s'`, and is not itself a key. -/
theorem unit_map_value_facts : ∀ p ∈ unit_map,
    pyLower p.2 = p.2 ∧ pyStrip p.2 = p.2 ∧ rstripS p.2 = p.2 ∧
    alookup p.2 unit_map = none := by
  decide

/-- Every `singular_map` value is already lower-case, stripped,
whitespace-collapsed, and is not itself a key. -/
theorem singular_map_value_facts : ∀ p ∈ singular_map,
    pyLower p.2 = p.2 ∧ pyStrip p.2 = p.2 ∧ collapseWs p.2 = p.2 ∧
    alookup p.2 singular_map = none := by
  decide

/-- A string fixed by every phase of `normalize_unit` is a fixed point. -/
theorem normalize_unit_fix (o : PyStr) (h1 : pyLower o = o)
    (h2 : pyStrip o = o) (h3 : rstripS o = o)
    (h4 : alookup o unit_map = none) : normalize_unit o = o := by
  rw [normalize_unit_getD, h1, h2, h3, h4]
  rfl

/-- A string fixed by every phase of `normalize_ingredient_name` is a fixed
point. -/
theorem normalize_name_fix (o : PyStr)
    (h1 : pyLower o = o) (h2 : pyStrip o = o)
    (h3 : ∀ m ∈ modifiers_to_remove, containsSub m o = false)
    (h4 : collapseWs o = o)
    (h5 : alookup o singular_map = none) :
    normalize_ingredient_name o = o := by
  show (alookup (collapseWs (modifiers_to_remove.foldl
      (fun t m => removeSub m t) (pyStrip (pyLower o)))) singular_map).getD
    (collapseWs (modifiers_to_remove.foldl
      (fun t m => removeSub m t) (pyStrip (pyLower o)))) = o
  rw [h1, h2, foldl_removeSub_of_not_contains _ _ h3, h4, h5]
  rfl

set_option maxHeartbeats 2000000 in
/-- C7 amended: idempotence holds conditionally, not unconditionally.
`normalize_unit` is idempotent at every input whose result carries no
surrounding whitespace (the `rstrip('s')` step can expose a trailing space,
which only the second pass trims), and `normalize_ingredient_name` is
idempotent at every input whose result contains no modifier substring
(modifier removal can splice a new modifier together, which only the second
pass removes). -/
theorem c7_conditional_idempotence :
    (∀ u : PyStr, pyStrip (normalize_unit u) = normalize_unit u →
      normalize_unit (normalize_unit u) = normalize_unit u) ∧
    (∀ n : PyStr,
      (∀ m ∈ modifiers_to_remove,
        containsSub m (normalize_ingredient_name n) = false) →
      normalize_ingredient_name (normalize_ingredient_name n) =
        normalize_ingredient_name n) := by
  constructor
  · intro u H
    cases hlk : alookup (rstripS (pyStrip (pyLower u))) unit_map with
    | some v =>
      have ho : normalize_unit u = v := by
        rw [normalize_unit_getD u, hlk]
        rfl
      have hv := unit_map_value_facts _ (alookup_mem hlk)
      rw [ho]
      exact normalize_unit_fix v hv.1 hv.2.1 hv.2.2.1 hv.2.2.2
    | none =>
      have ho : normalize_unit u = rstripS (pyStrip (pyLower u)) := by
        rw [normalize_unit_getD u, hlk]
        rfl
      rw [ho] at H ⊢
      apply normalize_unit_fix
      · apply map_id_of_mem
        intro c hc
        exact lowerChar_fix_of_mem_pyLower
          (mem_of_mem_pyStrip (mem_of_mem_rstripS hc))
      · exact H
      · exact rstripS_idem _
      · exact hlk
  · intro n hmod
    have hdef : normalize_ingredient_name n =
        (alookup (collapseWs (modifiers_to_remove.foldl
            (fun t m => removeSub m t) (pyStrip (pyLower n)))) singular_map).getD
          (collapseWs (modifiers_to_remove.foldl
            (fun t m => removeSub m t) (pyStrip (pyLower n)))) := rfl
    cases hz : alookup (collapseWs (modifiers_to_remove.foldl
        (fun t m => removeSub m t) (pyStrip (pyLower n)))) singular_map with
    | some v =>
      have ho : normalize_ingredient_name n = v := by
        rw [hdef, hz]
        rfl
      have hv := singular_map_value_facts _ (alookup_mem hz)
      rw [ho] at hmod ⊢
      exact normalize_name_fix v hv.1 hv.2.1 hmod hv.2.2.1 hv.2.2.2
    | none =>
      have ho : normalize_ingredient_name n =
          collapseWs (modifiers_to_remove.foldl
            (fun t m => removeSub m t) (pyStrip (pyLower n))) := by
        rw [hdef, hz, Option.getD_none]
      rw [ho] at hmod ⊢
      apply normalize_name_fix
      · apply map_id_of_mem
        intro c hc
        rcases mem_collapseWs hc with rfl | hcy
        · decide
        · exact lowerChar_fix_of_mem_pyLower
            (mem_of_mem_pyStrip (mem_of_mem_foldl_removeSub _ _ hcy))
      · exact pyStrip_collapseWs _
      · exact hmod
      · exact collapseWs_idem _
      · exact hz

/-- C7 counterexample to the claim as stated: `normalize_unit("cup s")`
returns `"cup "` (the `rstrip('s')` exposes a trailing space), which
re-normalizes to `"cup"`; and
`normalize_ingredient_name("fsmall resh apple")` returns `"fresh apple"`
(removing `"small "` splices `"fresh "` together), which re-normalizes to
`"apple"`. -/
theorem c7_counterexample :
    normalize_unit (normalize_unit (pystr "cup s")) ≠
      normalize_unit (pystr "cup s") ∧
    normalize_ingredient_name
        (normalize_ingredient_name (pystr "fsmall resh apple")) ≠
      normalize_ingredient_name (pystr "fsmall resh apple") := by
  constructor
  · decide
  · decide

/-- C7 witness: the conditional idempotence applied at concrete inputs whose
results are clean. -/
theorem c7_witness :
    (pyStrip (normalize_unit (pystr "tablespoons")) =
        normalize_unit (pystr "tablespoons") ∧
      normalize_unit (normalize_unit (pystr "tablespoons")) =
        normalize_unit (pystr "tablespoons")) ∧
    ((∀ m ∈ modifiers_to_remove,
        containsSub m (normalize_ingredient_name (pystr "Fresh Tomatoes")) =
          false) ∧
      normalize_ingredient_name
          (normalize_ingredient_name (pystr "Fresh Tomatoes")) =
        normalize_ingredient_name (pystr "Fresh Tomatoes")) :=
  ⟨⟨by decide, c7_conditional_idempotence.1 (pystr "tablespoons") (by decide)⟩,
   ⟨by decide, c7_conditional_idempotence.2 (pystr "Fresh Tomatoes") (by decide)⟩⟩
